import Mathlib

/-!
# Verification of `bus/containers.c` (restricted bus servers for containers)

A shallow embedding of the container-instance registry and restricted-listener
lifecycle manager of the D-Bus message broker (`src/bus/containers.c`), with
theorems settling the specification claims about it.

Machine integers are modelled as `Nat` with explicit bounds where overflow
matters.  Fallible C functions (allocation, directory creation, socket
operations) are modelled by threading an explicit oracle of success/failure
outcomes, one draw per fallible call, in source order.
-/

namespace DBusContainers

/-- Outcome oracle for fallible external calls (allocations, `listen`,
directory creation, ...).  One boolean is consumed per fallible call, in the
order the calls appear in the C source; an exhausted oracle means every
remaining call succeeds. -/
def Oracle : Type := List Bool

/-- Consume one outcome from the oracle (`true` = the call succeeds). -/
def Oracle.take (o : Oracle) : Bool × Oracle :=
  match o with
  | [] => (true, [])
  | b :: rest => (b, rest)

/-- The all-success oracle (no injected failures). -/
def Oracle.ok : Oracle := []

/-- Errors reported through `DBusError` by this subsystem, named after the
D-Bus error identifiers used in the source. -/
inductive DBusErr
  | noMemory
  | limitsExceeded (msg : String)
  | invalidArgs (msg : String)
  | failed (msg : String)
deriving DecidableEq, Repr

/-- `DBUS_UINT64_CONSTANT (0xFFFFFFFFFFFFFFFF)`: the largest value of the
64-bit instance counter. -/
def DBUS_UINT64_MAX : Nat := 2 ^ 64 - 1

/-- Little-endian base-10 digits of `n`, fuel-based so that it reduces by
kernel computation; agrees with `Nat.digits 10 n` whenever `n ≤ fuel`. -/
def natDigitsLE : Nat → Nat → List Nat
  | 0, _ => []
  | fuel + 1, n => if n = 0 then [] else n % 10 :: natDigitsLE fuel (n / 10)

/-- Decimal rendering of a 64-bit counter value, modelling
`printf "%" PRIu64`: most-significant digit first, and `0` prints as `"0"`. -/
def u64Repr (n : Nat) : List Char :=
  if n = 0 then ['0'] else (natDigitsLE n n).reverse.map Nat.digitChar

theorem natDigitsLE_eq_digits :
    ∀ fuel n, n ≤ fuel → natDigitsLE fuel n = Nat.digits 10 n := by
  intro fuel
  induction fuel with
  | zero => intro n hn; interval_cases n; simp [natDigitsLE]
  | succ f ih =>
    intro n hn
    by_cases h0 : n = 0
    · simp [natDigitsLE, h0]
    · have hpos : 0 < n := Nat.pos_of_ne_zero h0
      have hdiv : n / 10 ≤ f := by
        have : n / 10 < n := Nat.div_lt_self hpos (by norm_num)
        omega
      rw [natDigitsLE, if_neg h0, ih _ hdiv,
        Nat.digits_def' (by norm_num : 1 < 10) hpos]

/-- The fixed object-path prefix used by `bus_container_instance_new`. -/
def objectPathPrefix : List Char := "/org/freedesktop/DBus/Containers1/c".data

/-- The object path assigned to the instance with counter value `n`:
`/org/freedesktop/DBus/Containers1/c<n>` (source line 257). -/
def pathOfId (n : Nat) : String := String.mk (objectPathPrefix ++ u64Repr n)

theorem digitChar_inj_lt10 :
    ∀ a < 10, ∀ b < 10, Nat.digitChar a = Nat.digitChar b → a = b := by
  decide

theorem map_digitChar_inj {l₁ l₂ : List Nat}
    (h₁ : ∀ d ∈ l₁, d < 10) (h₂ : ∀ d ∈ l₂, d < 10)
    (h : l₁.map Nat.digitChar = l₂.map Nat.digitChar) : l₁ = l₂ := by
  induction l₁ generalizing l₂ with
  | nil => cases l₂ <;> simp_all
  | cons a t ih =>
    cases l₂ with
    | nil => simp_all
    | cons b t₂ =>
      simp only [List.map_cons, List.cons.injEq] at h
      have ha : a < 10 := h₁ a (List.mem_cons_self a t)
      have hb : b < 10 := h₂ b (List.mem_cons_self b t₂)
      have hab : a = b := digitChar_inj_lt10 a ha b hb h.1
      have ht : t = t₂ :=
        ih (fun d hd => h₁ d (List.mem_cons_of_mem a hd))
          (fun d hd => h₂ d (List.mem_cons_of_mem b hd)) h.2
      simp [hab, ht]

theorem digits_reverse_lt10 (k : Nat) : ∀ d ∈ (Nat.digits 10 k).reverse, d < 10 :=
  fun d hd => Nat.digits_lt_base (by norm_num) (List.mem_reverse.mp hd)

theorem u64Repr_eq_zero_str {k : Nat} (h : u64Repr k = ['0']) : k = 0 := by
  by_contra hk
  simp only [u64Repr, if_neg hk, natDigitsLE_eq_digits k k le_rfl] at h
  have hrev : (Nat.digits 10 k).reverse = [(0 : Nat)] := by
    refine map_digitChar_inj (digits_reverse_lt10 k) (by simp) ?_
    simpa using h
  have hd : Nat.digits 10 k = [0] := by
    have := congrArg List.reverse hrev
    simpa using this
  have : k = Nat.ofDigits 10 [(0 : Nat)] := by
    rw [← hd, Nat.ofDigits_digits]
  simp [Nat.ofDigits] at this
  exact hk this

theorem u64Repr_inj {m n : Nat} (h : u64Repr m = u64Repr n) : m = n := by
  by_cases hm : m = 0 <;> by_cases hn : n = 0
  · omega
  · have hm' : u64Repr m = ['0'] := by simp [u64Repr, hm]
    exact absurd (u64Repr_eq_zero_str (hm' ▸ h).symm) hn
  · have hn' : u64Repr n = ['0'] := by simp [u64Repr, hn]
    exact absurd (u64Repr_eq_zero_str (hn' ▸ h)) hm
  · simp only [u64Repr, if_neg hm, if_neg hn, natDigitsLE_eq_digits m m le_rfl,
      natDigitsLE_eq_digits n n le_rfl] at h
    have hrev : (Nat.digits 10 m).reverse = (Nat.digits 10 n).reverse :=
      map_digitChar_inj (digits_reverse_lt10 m) (digits_reverse_lt10 n) h
    have hd : Nat.digits 10 m = Nat.digits 10 n := by
      have := congrArg List.reverse hrev
      simpa using this
    exact Nat.digits.injective 10 hd

theorem pathOfId_inj {m n : Nat} (h : pathOfId m = pathOfId n) : m = n := by
  have hdata : objectPathPrefix ++ u64Repr m = objectPathPrefix ++ u64Repr n := by
    have := congrArg String.data h
    simpa [pathOfId] using this
  exact u64Repr_inj (List.append_cancel_left hdata)

/-! ## Address resolver: `bus_containers_new` and
`bus_containers_ensure_address_template` -/

/-- Modelled from the spec: the external D-Bus address escaper
`_dbus_address_append_escaped` (not under `src/`), which keeps
"optionally escaped" bytes (ASCII letters, digits, `-`, `_`, `/`, `\`, `*`,
`.`) verbatim and percent-encodes every other byte in uppercase hexadecimal. -/
def addressEscapeChar (c : Char) : List Char :=
  if c.isAlpha || c.isDigit || c = '-' || c = '_' || c = '/' || c = '\\' ||
     c = '*' || c = '.' then
    [c]
  else
    '%' :: (Nat.toDigits 16 c.toNat).map Char.toUpper

/-- Append `dir` to an address string with D-Bus address escaping
(`_dbus_address_append_escaped`). -/
def addressAppendEscaped (tmpl dir : String) : String :=
  String.mk (tmpl.data ++ dir.data.flatMap addressEscapeChar)

/-- The process environment observed by the address resolver:
`_dbus_getuid`, `_dbus_getenv ("XDG_RUNTIME_DIR")`, `_dbus_get_tmpdir`,
and the compile-time constant `DBUS_RUNSTATEDIR`. -/
structure Env where
  uid : Nat
  xdgRuntimeDir : Option String
  tmpdir : String
  runstatedir : String
deriving Repr

/-- `struct BusContainers` (source lines 61-69): the singleton holding the
lazily created path-keyed registry (`instances_by_path`, `none` until first
use, mapping each object path to the id of its instance), the cached socket
address template, and the 64-bit instance counter.  The broker-wide refcount
on the singleton itself plays no role in the claims and is not tracked. -/
structure BusContainers where
  nextContainerId : Nat
  instancesByPath : Option (List (String × Nat))
  addressTemplate : String
deriving Repr, DecidableEq

/-- `bus_containers_new` (source lines 71-124): allocate the singleton; when
running as uid 0, fill the address template eagerly with the pre-provisioned
system directory `DBUS_RUNSTATEDIR "/dbus/containers"`; otherwise leave it
empty so it is computed on demand.  Fallible calls, in order: `dbus_new0`,
`_dbus_string_init`, and (uid 0 only) the two appends building the
template.  Returns `none` on allocation failure. -/
def bus_containers_new (env : Env) (o : Oracle) :
    Option BusContainers × Oracle :=
  let (okAlloc, o) := o.take
  if !okAlloc then (none, o) else
  let (okInit, o) := o.take
  if !okInit then (none, o) else
  if env.uid = 0 then
    let dir := env.runstatedir ++ "/dbus/containers"
    let (okAppend1, o) := o.take
    if !okAppend1 then (none, o) else
    let (okAppend2, o) := o.take
    if !okAppend2 then (none, o) else
    (some ⟨0, none, addressAppendEscaped "unix:dir=" dir⟩, o)
  else
    (some ⟨0, none, ""⟩, o)

/-- `bus_containers_ensure_address_template` (source lines 299-370): return
the cached template if already computed; otherwise derive the socket
directory (`$XDG_RUNTIME_DIR/dbus-1/containers`, created on demand, or the
generic temporary directory when no runtime directory is configured), build
`unix:dir=<escaped dir>` into the template and return it.  On failure the
template is reset to empty.  Fallible calls in the runtime-dir branch, in
order: `_dbus_string_init`, the append of the runtime dir, the append of
`"/dbus-1"`, `_dbus_ensure_directory`, the append of `"/containers"`,
`_dbus_ensure_directory`; then in both branches the append of `"unix:dir="`
and the escaped append. -/
def bus_containers_ensure_address_template (env : Env) (self : BusContainers)
    (o : Oracle) : Option String × BusContainers × Oracle :=
  if 0 < self.addressTemplate.length then
    (some self.addressTemplate, self, o)
  else
    match env.xdgRuntimeDir with
    | some runtimeDir =>
      let (okInit, o) := o.take
      if !okInit then (none, self, o) else
      let (okAppendRt, o) := o.take
      if !okAppendRt then (none, self, o) else
      let (okAppend1, o) := o.take
      if !okAppend1 then (none, self, o) else
      let dir := runtimeDir ++ "/dbus-1"
      let (okEnsure1, o) := o.take
      if !okEnsure1 then (none, self, o) else
      let (okAppend2, o) := o.take
      if !okAppend2 then (none, self, o) else
      let dir := dir ++ "/containers"
      let (okEnsure2, o) := o.take
      if !okEnsure2 then (none, self, o) else
      let (okAppend3, o) := o.take
      if !okAppend3 then (none, { self with addressTemplate := "" }, o) else
      let (okEscaped, o) := o.take
      if !okEscaped then (none, { self with addressTemplate := "" }, o) else
      let tmpl := addressAppendEscaped "unix:dir=" dir
      (some tmpl, { self with addressTemplate := tmpl }, o)
    | none =>
      let dir := env.tmpdir
      let (okAppend3, o) := o.take
      if !okAppend3 then (none, { self with addressTemplate := "" }, o) else
      let (okEscaped, o) := o.take
      if !okEscaped then (none, { self with addressTemplate := "" }, o) else
      let tmpl := addressAppendEscaped "unix:dir=" dir
      (some tmpl, { self with addressTemplate := tmpl }, o)

/-! ## Instance records, the registry and the listener lifecycle -/

/-- An opaque deep-copied metadata blob (`DBusVariant` of signature
`a{sv}`); only its serialized size is observable to this subsystem. -/
structure DBusVariant where
  serializedSize : Nat
deriving Repr, DecidableEq

/-- A `DBusServer` as visible to this subsystem: its listen address, the
configured authentication-mechanism filter (`none` = the library default,
i.e. all supported mechanisms), and whether a new-connection (accept)
callback is currently attached. -/
structure DBusServer where
  address : String
  authMechanisms : Option (List String)
  hasNewConnectionFunction : Bool
deriving Repr, DecidableEq

/-- `BusContainerInstance` (source lines 45-55).  `id` is the counter value
consumed for this instance; its object path is `pathOfId id` and `hasPath`
records whether `self->path` is non-NULL (i.e. `_dbus_string_steal_data`
succeeded).  `serverHoldsRef` records that the accept callback installed by
`bus_container_instance_listen` holds a self-reference (included in
`refcount`). -/
structure BusContainerInstance where
  refcount : Nat
  id : Nat
  hasPath : Bool
  type_ : Option String
  name : Option String
  metadata : Option DBusVariant
  server : Option DBusServer
  serverHoldsRef : Bool
deriving Repr, DecidableEq

/-- The broker-wide state the claims observe: the `BusContainers` singleton
and the number of currently open (listening) container sockets. -/
structure World where
  containers : BusContainers
  openServers : Nat
deriving Repr, DecidableEq

/-- Keys currently present in the path-keyed registry. -/
def registryKeys (c : BusContainers) : List String :=
  (c.instancesByPath.getD []).map Prod.fst

/-- Association-list lookup by key. -/
def assocLookup (l : List (String × Nat)) (p : String) : Option Nat :=
  match l with
  | [] => none
  | kv :: t => if kv.1 = p then some kv.2 else assocLookup t p

/-- Registry lookup (`_dbus_hash_table_lookup_string`). -/
def lookupByPath (c : BusContainers) (p : String) : Option Nat :=
  assocLookup (c.instancesByPath.getD []) p

/-- Remove the entry with the given key from an association list. -/
def removeKey (l : List (String × Nat)) (p : String) : List (String × Nat) :=
  l.filter (fun kv => !(kv.1 == p))

/-- `_dbus_hash_table_remove_string` on the registry: a no-op when the table
was never allocated. -/
def hashTableRemoveString (c : BusContainers) (p : String) : BusContainers :=
  match c.instancesByPath with
  | none => c
  | some l => { c with instancesByPath := some (removeKey l p) }

/-- `bus_container_instance_ref` (source lines 150-158). -/
def bus_container_instance_ref (self : BusContainerInstance) :
    BusContainerInstance :=
  { self with refcount := self.refcount + 1 }

/-- `bus_container_instance_unref` (source lines 160-186).  When the
refcount drops to zero the record removes itself from the registry (if its
path was ever assigned) and is freed (`none`).  The returned flag is the
destructor's assertion `self->server == NULL`, evaluated at the moment the
refcount reaches zero (`true` when the refcount stays positive). -/
def bus_container_instance_unref (w : World) (self : BusContainerInstance) :
    World × Option BusContainerInstance × Bool :=
  if self.refcount ≤ 1 then
    let w :=
      if self.hasPath then
        { w with containers := hashTableRemoveString w.containers (pathOfId self.id) }
      else w
    (w, none, self.server.isNone)
  else
    (w, some { self with refcount := self.refcount - 1 }, true)

/-- Observable steps of `bus_container_instance_stop_listening`, in the
order they are performed. -/
inductive TeardownEv
  | detachCallback
  | disconnect
  | closeServer
deriving Repr, DecidableEq

/-- `bus_container_instance_stop_listening` (source lines 195-209): take a
temporary self-reference; if a server is attached, first detach the accept
callback with `dbus_server_set_new_connection_function (server, NULL, NULL,
NULL)` — which makes the server release the self-reference the callback
held — then `dbus_server_disconnect` (closing the listening socket), then
`dbus_clear_server`; finally drop the temporary reference.  Returns the
updated world, the surviving record (or `none` if freed), the teardown
events in order, and the conjunction of destructor assertions encountered. -/
def bus_container_instance_stop_listening (w : World)
    (self : BusContainerInstance) :
    World × Option BusContainerInstance × List TeardownEv × Bool :=
  let self := bus_container_instance_ref self
  match self.server with
  | some srv =>
    let self :=
      { self with server := some { srv with hasNewConnectionFunction := false } }
    let (w, self?, ok₁) :=
      if self.serverHoldsRef then
        bus_container_instance_unref w { self with serverHoldsRef := false }
      else (w, some self, true)
    match self? with
    | none => (w, none, [TeardownEv.detachCallback], ok₁)
    | some self =>
      let w := { w with openServers := w.openServers - 1 }
      let self := { self with server := none }
      let (w, self?, ok₂) := bus_container_instance_unref w self
      (w, self?,
       [TeardownEv.detachCallback, TeardownEv.disconnect, TeardownEv.closeServer],
       ok₁ && ok₂)
  | none =>
    let (w, self?, ok) := bus_container_instance_unref w self
    (w, self?, [], ok)

/-- Result of `bus_container_instance_new`, together with the updated
singleton, the remaining oracle, and a ghost flag recording whether the
`dbus_new0 (BusContainerInstance, 1)` allocation of the record was reached
and succeeded. -/
structure NewResult where
  result : Except DBusErr BusContainerInstance
  containers : BusContainers
  oracle : Oracle
  recordAllocated : Bool

/-- `bus_container_instance_new` (source lines 211-277).  Fallible calls in
order: `_dbus_string_init (&path)`, `dbus_new0`, then — after the counter
exhaustion check — `_dbus_string_append_printf` and
`_dbus_string_steal_data`.  The post-increment
`containers->next_container_id++` is an argument of the printf call, so the
counter advances even when that call itself fails.  On any failure the fresh
record (if allocated) is released; its path is still NULL then, so the
registry is untouched. -/
def bus_container_instance_new (c : BusContainers) (o : Oracle) : NewResult :=
  let (okInit, o) := o.take
  if !okInit then ⟨.error .noMemory, c, o, false⟩ else
  let (okAlloc, o) := o.take
  if !okAlloc then ⟨.error .noMemory, c, o, false⟩ else
  if DBUS_UINT64_MAX ≤ c.nextContainerId then
    ⟨.error (.limitsExceeded
        "Too many containers created during the lifetime of this bus"),
     c, o, true⟩
  else
    let id := c.nextContainerId
    let c := { c with nextContainerId := c.nextContainerId + 1 }
    let (okPrintf, o) := o.take
    if !okPrintf then ⟨.error .noMemory, c, o, true⟩ else
    let (okSteal, o) := o.take
    if !okSteal then ⟨.error .noMemory, c, o, true⟩ else
    ⟨.ok { refcount := 1, id := id, hasPath := true, type_ := none,
           name := none, metadata := none, server := none,
           serverHoldsRef := false },
     c, o, true⟩

/-- The authentication mechanisms offered on container listeners (source
lines 279-285): only `EXTERNAL`. -/
def auth_mechanisms : List String := ["EXTERNAL"]

/-- `bus_container_instance_listen` (source lines 372-404): resolve the
address template, `dbus_server_listen` on it (opening a listening socket),
`bus_context_setup_server`, restrict the authentication mechanisms to
`auth_mechanisms`, and finally attach the accept callback, which takes a
self-reference on the record (`dbus_server_set_new_connection_function`
cannot fail).  On the failure paths the partially set up server stays
attached to the record; the caller unwinds it via
`bus_container_instance_stop_listening`. -/
def bus_container_instance_listen (env : Env) (w : World)
    (self : BusContainerInstance) (o : Oracle) :
    Except DBusErr Unit × World × BusContainerInstance × Oracle :=
  let (addr?, containers, o) :=
    bus_containers_ensure_address_template env w.containers o
  let w := { w with containers := containers }
  match addr? with
  | none => (.error .noMemory, w, self, o)
  | some address =>
    let (okListen, o) := o.take
    if !okListen then (.error (.failed "dbus_server_listen"), w, self, o) else
    let w := { w with openServers := w.openServers + 1 }
    let self :=
      { self with server := some { address := address, authMechanisms := none,
                                   hasNewConnectionFunction := false } }
    let (okSetup, o) := o.take
    if !okSetup then
      (.error (.failed "bus_context_setup_server"), w, self, o)
    else
    let (okAuth, o) := o.take
    if !okAuth then (.error .noMemory, w, self, o) else
    let srv₁ : DBusServer :=
      { address := address, authMechanisms := some auth_mechanisms,
        hasNewConnectionFunction := false }
    let self := { self with server := some srv₁ }
    let srv₂ : DBusServer := { srv₁ with hasNewConnectionFunction := true }
    let self :=
      { self with refcount := self.refcount + 1, serverHoldsRef := true, server := some srv₂ }
    (.ok (), w, self, o)

/-! ## The `AddServer` (CreateInstance) method handler -/

/-- Whether `c` may start an element of a D-Bus interface name. -/
def validNameFirstChar (c : Char) : Bool := c.isAlpha || c = '_'

/-- Whether `c` may continue an element of a D-Bus interface name. -/
def validNameChar (c : Char) : Bool := c.isAlpha || c.isDigit || c = '_'

/-- One dot-separated element of an interface name. -/
def validInterfaceElem : List Char → Bool
  | [] => false
  | c :: rest => validNameFirstChar c && rest.all validNameChar

/-- Split a character list at every `.`. -/
def splitOnDot : List Char → List (List Char)
  | [] => [[]]
  | c :: rest =>
    if c = '.' then [] :: splitOnDot rest
    else
      match splitOnDot rest with
      | [] => [[c]]
      | p :: ps => (c :: p) :: ps

/-- Modelled from the spec: the external validator `dbus_validate_interface`
(not under `src/`), checking D-Bus interface-name syntax: at most 255 bytes,
at least two nonempty dot-separated elements, each starting with a letter or
underscore and continuing with letters, digits or underscores. -/
def dbus_validate_interface (s : String) : Bool :=
  s.length ≤ 255 &&
  (let parts := splitOnDot s.data
   2 ≤ parts.length && parts.all validInterfaceElem)

/-- The four arguments of an `AddServer` (CreateInstance) message, of
signature `ssa{sv}a{sv}` (already validated by `bus_driver_handle_message`):
container type, name, metadata, and the keys of the named-parameter
dictionary (their values are never inspected). -/
structure CreateArgs where
  type_ : String
  name : String
  metadata : DBusVariant
  namedParams : List String
deriving Repr, DecidableEq

/-- Outcome of `bus_containers_handle_add_server`: a successful reply
carrying the new object path, a D-Bus error reply, or a crash of the broker
process (undefined behaviour / failed internal assertion). -/
inductive HandleResult
  | ok (path : String)
  | err (e : DBusErr)
  | crashed
deriving Repr, DecidableEq

/-- Result of `bus_containers_handle_add_server` together with the final
world and the ghost flag of `NewResult.recordAllocated`. -/
structure HandleOutcome where
  result : HandleResult
  world : World
  recordAllocated : Bool
deriving Repr, DecidableEq

/-- The `oom:`/`fail:` unwind path of `bus_containers_handle_add_server`
(source lines 577-588): stop the instance listening (detaching the callback
and closing any freshly opened socket), then drop the handler's reference
(`bus_clear_container_instance`), which — if it was the last — removes the
registry entry and frees the record.  Returns the world and the conjunction
of destructor assertions encountered. -/
def handleFailPath (w : World) (inst? : Option BusContainerInstance) :
    World × Bool :=
  match inst? with
  | none => (w, true)
  | some inst =>
    let (w, inst?, _evs, ok₁) := bus_container_instance_stop_listening w inst
    match inst? with
    | none => (w, ok₁)
    | some inst =>
      let (w, _, ok₂) := bus_container_instance_unref w inst
      (w, ok₁ && ok₂)

/-- The reply construction and send of a successful `AddServer` call
(source lines 537-569): `dbus_message_new_method_return` plus the first
`dbus_message_append_args`, `dbus_message_iter_open_container`,
`dbus_message_iter_append_fixed_array`, `dbus_message_iter_close_container`,
the second `dbus_message_append_args`, and
`bus_transaction_send_from_driver` — seven fallible calls in sequence, each
taking the `oom:` path on failure.  Only success/failure and oracle
consumption are observable to the registry state. -/
def replySequence (o : Oracle) : Bool × Oracle :=
  let (okNewReply, o) := o.take
  if !okNewReply then (false, o) else
  let (okAppendPath, o) := o.take
  if !okAppendPath then (false, o) else
  let (okOpenArray, o) := o.take
  if !okOpenArray then (false, o) else
  let (okAppendBytes, o) := o.take
  if !okAppendBytes then (false, o) else
  let (okCloseArray, o) := o.take
  if !okCloseArray then (false, o) else
  let (okAppendAddr, o) := o.take
  if !okAppendAddr then (false, o) else
  let (okSend, o) := o.take
  if !okSend then (false, o) else
  (true, o)

/-- Package an error return through the unwind path. -/
def handleFail (w : World) (inst? : Option BusContainerInstance)
    (e : DBusErr) (recA : Bool) (o : Oracle) : HandleOutcome × Oracle :=
  let (w, _ok) := handleFailPath w inst?
  (⟨.err e, w, recA⟩, o)

/-- Tail of `bus_containers_handle_add_server` after a successful
`bus_container_instance_listen` (source lines 526-575): build and send the
reply, then drop the handler's reference; on failure take the `oom:`
path. -/
def addServerReply (w : World) (inst : BusContainerInstance) (o : Oracle) :
    HandleOutcome × Oracle :=
  let (okReply, o) := replySequence o
  if !okReply then handleFail w (some inst) .noMemory true o else
  let (w, _, _) := bus_container_instance_unref w inst
  (⟨.ok (pathOfId inst.id), w, true⟩, o)

/-- `bus_containers_handle_add_server` from the
`bus_container_instance_listen` call on (source lines 520-575): listen,
taking the `fail:` path on failure, then reply. -/
def addServerListen (env : Env) (w : World) (inst : BusContainerInstance)
    (o : Oracle) : HandleOutcome × Oracle :=
  let (r, w, inst, o) := bus_container_instance_listen env w inst o
  match r with
  | .error e => handleFail w (some inst) e true o
  | .ok () => addServerReply w inst o

/-- `bus_containers_handle_add_server` from the registry step on (source
lines 507-575): lazily create `instances_by_path`, insert the new record
under its path (`_dbus_hash_table_insert_string`), then listen and
reply. -/
def addServerRegister (env : Env) (w : World) (inst : BusContainerInstance)
    (o : Oracle) : HandleOutcome × Oracle :=
  let (tableOk, w, o) :=
    match w.containers.instancesByPath with
    | none =>
      let (okNewTable, o) := o.take
      if !okNewTable then (false, w, o)
      else (true,
            { w with containers :=
                { w.containers with instancesByPath := some [] } }, o)
    | some _ => (true, w, o)
  if !tableOk then handleFail w (some inst) .noMemory true o else
  let (okInsert, o) := o.take
  if !okInsert then handleFail w (some inst) .noMemory true o else
  let inserted : List (String × Nat) :=
    (pathOfId inst.id, inst.id) :: (w.containers.instancesByPath.getD [])
  let w :=
    { w with containers :=
        { w.containers with instancesByPath := some inserted } }
  addServerListen env w inst o

/-- `bus_containers_handle_add_server` from argument processing on (source
lines 438-575): `_dbus_strdup (type)`, `dbus_validate_interface`,
`_dbus_strdup (name)`, `_dbus_variant_read` — whose NULL result on
allocation failure is *not* checked: the very next line evaluates
`_dbus_variant_get_signature (instance->metadata)` inside an assertion,
dereferencing the null pointer (modelled as `.crashed`) — then the
named-parameter loop (any key is rejected as not understood), then
registration, listening and reply. -/
def addServerArgs (env : Env) (w : World) (inst : BusContainerInstance)
    (args : CreateArgs) (o : Oracle) : HandleOutcome × Oracle :=
  let (okStrdupType, o) := o.take
  if !okStrdupType then handleFail w (some inst) .noMemory true o else
  let inst := { inst with type_ := some args.type_ }
  if !dbus_validate_interface args.type_ then
    handleFail w (some inst)
      (.invalidArgs
        "The container type identifier must have the syntax of an interface name")
      true o
  else
  let (okStrdupName, o) := o.take
  if !okStrdupName then handleFail w (some inst) .noMemory true o else
  let inst := { inst with name := some args.name }
  let (okVariantRead, o) := o.take
  if !okVariantRead then (⟨.crashed, w, true⟩, o) else
  let inst := { inst with metadata := some args.metadata }
  match args.namedParams with
  | paramName :: _ =>
    handleFail w (some inst)
      (.invalidArgs ("Named parameter " ++ paramName ++ " is not understood"))
      true o
  | [] => addServerRegister env w inst o

/-- `bus_containers_handle_add_server` (source lines 406-589): allocate the
instance record (consuming a counter value), then process the message
arguments, register, listen and reply, unwinding through the `oom:`/`fail:`
path on any failure. -/
def bus_containers_handle_add_server (env : Env) (w : World)
    (args : CreateArgs) (o : Oracle) : HandleOutcome × Oracle :=
  let nr := bus_container_instance_new w.containers o
  let w := { w with containers := nr.containers }
  let o := nr.oracle
  match nr.result with
  | .error e => (⟨.err e, w, nr.recordAllocated⟩, o)
  | .ok inst => addServerArgs env w inst args o

/-- `bus_containers_supported_arguments_getter` (source lines 591-602):
opens and immediately closes an empty string array — the advertised set of
supported named-argument keys is empty.  Each container operation can fail
on allocation. -/
def bus_containers_supported_arguments_getter (o : Oracle) :
    Option (List String) × Oracle :=
  let (okOpen, o) := o.take
  if !okOpen then (none, o) else
  let (okClose, o) := o.take
  if !okClose then (none, o) else
  (some [], o)


/-! ## Broker-lifetime traces

Operations the rest of the broker can perform against the registry during
one process lifetime: `CreateInstance` calls (`AddServer`), and removal of
a live instance — the net registry effect of the last
`bus_container_instance_unref` on it (source lines 174-176), triggered by
any teardown path (explicit stop, manager disconnect, shutdown). -/

inductive Op
  | create (args : CreateArgs) (o : Oracle)
  | removeInstance (p : String)

/-- Externally observable per-operation events. -/
inductive Ev
  | created (p : String)
  | createFailed
  | crashed
  | removed (p : String)
  | removeMiss (p : String)
deriving DecidableEq, Repr

/-- One broker dispatch step. -/
def stepOp (env : Env) (w : World) : Op → World × Ev
  | .create args o =>
    let out := (bus_containers_handle_add_server env w args o).1
    (out.world,
     match out.result with
     | .ok p => .created p
     | .err _ => .createFailed
     | .crashed => .crashed)
  | .removeInstance p =>
    match lookupByPath w.containers p with
    | some _ =>
      ({ w with containers := hashTableRemoveString w.containers p }, .removed p)
    | none => (w, .removeMiss p)

/-- Run a sequence of operations on the single dispatch thread.  A crash
ends the process: no further operations are dispatched. -/
def run (env : Env) (w : World) : List Op → World × List Ev
  | [] => (w, [])
  | op :: ops =>
    let (w', e) := stepOp env w op
    if e = Ev.crashed then (w', [e])
    else
      let (w'', evs) := run env w' ops
      (w'', e :: evs)

/-- The object paths returned by the successful creations of a trace. -/
def createdPaths (evs : List Ev) : List String :=
  evs.filterMap (fun e => match e with | .created p => some p | _ => none)

/-- Registry well-formedness: every entry maps the object path of its
instance id, and every registered id was consumed by the counter. -/
def RegInv (w : World) : Prop :=
  ∀ kv ∈ w.containers.instancesByPath.getD [],
    kv.1 = pathOfId kv.2 ∧ kv.2 < w.containers.nextContainerId

/-! ## The instance-record lifecycle, as driven by this file's call sites -/

/-- The operations the broker performs on one instance record after its
creation.  `releaseRef` is a `bus_container_instance_unref` by an owner of
a reference other than the accept callback's self-reference (in the source
that self-reference is only ever released via
`dbus_server_set_new_connection_function` inside
`bus_container_instance_stop_listening`).  `listenAndUnwind` is
`bus_container_instance_listen` as invoked by
`bus_containers_handle_add_server`, whose `fail:` path immediately calls
`bus_container_instance_stop_listening` when listening fails. -/
inductive LifecycleOp
  | acquireRef
  | releaseRef
  | listenAndUnwind (o : Oracle)
  | stopListening

/-- Precondition under which the source performs the operation:
references are only released by their owners, and `listen` is only called
on a record that is not yet listening. -/
def LifecycleOp.legit (self : BusContainerInstance) : LifecycleOp → Prop
  | .acquireRef => True
  | .releaseRef => (if self.serverHoldsRef then 1 else 0) < self.refcount
  | .listenAndUnwind _ => self.server = none
  | .stopListening => True

/-- Execute one lifecycle operation; returns the world, the surviving
record (`none` when freed), and the conjunction of destructor assertions
(`self->server == NULL` at refcount zero) encountered. -/
def lifecycleStep (env : Env) (w : World) (self : BusContainerInstance) :
    LifecycleOp → World × Option BusContainerInstance × Bool
  | .acquireRef => (w, some (bus_container_instance_ref self), true)
  | .releaseRef => bus_container_instance_unref w self
  | .listenAndUnwind o =>
    let (r, w, self, _o) := bus_container_instance_listen env w self o
    match r with
    | .ok _ => (w, some self, true)
    | .error _ =>
      let (w, self?, _evs, ok) := bus_container_instance_stop_listening w self
      (w, self?, ok)
  | .stopListening =>
    let (w, self?, _evs, ok) := bus_container_instance_stop_listening w self
    (w, self?, ok)

/-- The states one instance record can reach: freshly created by
`bus_container_instance_new`, then driven by any sequence of legitimate
lifecycle operations that leaves it alive. -/
inductive ReachInst (env : Env) : World → BusContainerInstance → Prop
  | new (w : World) (c : BusContainers) (o : Oracle) (inst : BusContainerInstance)
      (h : (bus_container_instance_new c o).result = .ok inst) :
      ReachInst env w inst
  | step (w : World) (self : BusContainerInstance) (op : LifecycleOp)
      (w' : World) (self' : BusContainerInstance) (ok : Bool)
      (hr : ReachInst env w self) (hleg : op.legit self)
      (hstep : lifecycleStep env w self op = (w', some self', ok)) :
      ReachInst env w' self'

/-! ## Concrete inputs used by the witnesses and counterexamples -/

/-- An unprivileged environment with a configured runtime directory. -/
def envU : Env := ⟨1000, some "/run/user/1000", "/tmp", "/run"⟩

/-- An unprivileged environment with no runtime directory configured. -/
def envT : Env := ⟨1000, none, "/tmp", "/run"⟩

/-- A freshly started broker: counter at zero, registry never allocated,
no cached template, no open sockets. -/
def initW : World := ⟨⟨0, none, ""⟩, 0⟩

/-- A broker whose 64-bit instance counter is exhausted. -/
def maxW : World := ⟨⟨DBUS_UINT64_MAX, none, ""⟩, 0⟩

/-- A broker with three live instances already registered. -/
def busyW : World :=
  ⟨⟨3, some [(pathOfId 2, 2), (pathOfId 1, 1), (pathOfId 0, 0)], ""⟩, 3⟩

/-- A well-formed `AddServer` call with no named parameters. -/
def argsOk : CreateArgs := ⟨"com.example.Sandbox", "sample", ⟨10⟩, []⟩

/-- An `AddServer` call carrying one named parameter. -/
def argsNamed : CreateArgs :=
  ⟨"com.example.Sandbox", "sample", ⟨10⟩, ["Isolation"]⟩

/-- An `AddServer` call with a very large metadata blob. -/
def argsBig : CreateArgs :=
  ⟨"com.example.Sandbox", "sample", ⟨1000000000⟩, []⟩

/-- The record `bus_container_instance_new` mints at counter value 0. -/
def instFresh : BusContainerInstance :=
  ⟨1, 0, true, none, none, none, none, false⟩

/-- A listener with the accept callback attached. -/
def srvListening : DBusServer := ⟨"unix:dir=/tmp", some auth_mechanisms, true⟩

/-- A fully set up listening instance: the handler's reference plus the
accept callback's self-reference. -/
def instListening : BusContainerInstance :=
  ⟨2, 0, true, some "com.example.Sandbox", some "sample", some ⟨10⟩,
   some srvListening, true⟩

/-- A short broker lifetime: two creations, then removal of the first. -/
def opsW : List Op :=
  [Op.create argsOk [], Op.create argsOk [], Op.removeInstance (pathOfId 0)]

/-- Failure injected exactly at the `_dbus_variant_read` deep copy of the
metadata argument (the seventh fallible call of a creation). -/
def oomVariantRead : Oracle := [true, true, true, true, true, true, false]

/-! ## Helper lemmas -/

theorem removeKey_of_not_mem {l : List (String × Nat)} {p : String}
    (h : ∀ kv ∈ l, kv.1 ≠ p) : removeKey l p = l := by
  unfold removeKey
  rw [List.filter_eq_self]
  intro kv hkv
  simpa using h kv hkv

theorem assocLookup_removeKey_self (l : List (String × Nat)) (p : String) :
    assocLookup (removeKey l p) p = none := by
  induction l with
  | nil => simp [removeKey, assocLookup]
  | cons kv t ih =>
    by_cases h : kv.1 = p
    · simpa [removeKey, h] using ih
    · simpa [removeKey, h, assocLookup] using ih

theorem assocLookup_none_removeKey {l : List (String × Nat)} {q : String}
    (p : String) (h : assocLookup l q = none) :
    assocLookup (removeKey l p) q = none := by
  induction l with
  | nil => simp [removeKey, assocLookup]
  | cons kv t ih =>
    by_cases hq : kv.1 = q
    · simp [assocLookup, hq] at h
    · simp only [assocLookup, if_neg hq] at h
      by_cases hp : kv.1 = p
      · simpa [removeKey, hp] using ih h
      · simpa [removeKey, hp, assocLookup, if_neg hq] using ih h

theorem assocLookup_some_mem {l : List (String × Nat)} {q : String} {v : Nat}
    (h : assocLookup l q = some v) : (q, v) ∈ l := by
  induction l with
  | nil => simp [assocLookup] at h
  | cons kv t ih =>
    by_cases hq : kv.1 = q
    · simp only [assocLookup, if_pos hq] at h
      obtain ⟨rfl⟩ := h
      cases kv
      simp_all
    · simp only [assocLookup, if_neg hq] at h
      exact List.mem_cons_of_mem _ (ih h)

theorem removeKey_cons_self (l : List (String × Nat)) (p : String) (i : Nat) :
    removeKey ((p, i) :: l) p = removeKey l p := by
  simp [removeKey]

/-- What `bus_container_instance_new` guarantees: the registry and template
are untouched, the counter advances by at most one, and a successful result
is a fresh record carrying the pre-call counter value as its id. -/
theorem instance_new_spec (c : BusContainers) (o : Oracle) :
    (bus_container_instance_new c o).containers.instancesByPath = c.instancesByPath ∧
    (bus_container_instance_new c o).containers.addressTemplate = c.addressTemplate ∧
    c.nextContainerId ≤ (bus_container_instance_new c o).containers.nextContainerId ∧
    (bus_container_instance_new c o).containers.nextContainerId ≤ c.nextContainerId + 1 ∧
    (∀ inst, (bus_container_instance_new c o).result = .ok inst →
       inst = { refcount := 1, id := c.nextContainerId, hasPath := true,
                type_ := none, name := none, metadata := none, server := none,
                serverHoldsRef := false } ∧
       (bus_container_instance_new c o).containers.nextContainerId = c.nextContainerId + 1) := by
  unfold bus_container_instance_new
  repeat' split
  all_goals simp_all

/-- `bus_containers_ensure_address_template` only ever writes the cached
template; registry and counter are untouched. -/
theorem ensure_template_frame (env : Env) (c : BusContainers) (o : Oracle) :
    (bus_containers_ensure_address_template env c o).2.1.instancesByPath = c.instancesByPath ∧
    (bus_containers_ensure_address_template env c o).2.1.nextContainerId = c.nextContainerId := by
  unfold bus_containers_ensure_address_template
  repeat' split
  all_goals simp_all

/-- Effect of `bus_container_instance_listen` when called (as the handler
does) on a record that is not yet listening. -/
theorem listen_spec (env : Env) (w : World) (self : BusContainerInstance)
    (o : Oracle) (r : Except DBusErr Unit) (w' : World)
    (self' : BusContainerInstance) (o'' : Oracle)
    (hserv : self.server = none)
    (hl : bus_container_instance_listen env w self o = (r, w', self', o'')) :
    w'.containers.instancesByPath = w.containers.instancesByPath ∧
    w'.containers.nextContainerId = w.containers.nextContainerId ∧
    self'.id = self.id ∧
    self'.hasPath = self.hasPath ∧
    (r = .ok () →
       w'.openServers = w.openServers + 1 ∧
       self'.refcount = self.refcount + 1 ∧
       self'.serverHoldsRef = true ∧
       (∃ s, self'.server = some s ∧ s.authMechanisms = some auth_mechanisms)) ∧
    (∀ e, r = .error e →
       self'.refcount = self.refcount ∧
       self'.serverHoldsRef = self.serverHoldsRef ∧
       ((self'.server = none ∧ w'.openServers = w.openServers) ∨
        (self'.server.isSome ∧ w'.openServers = w.openServers + 1))) := by
  have hef := ensure_template_frame env w.containers o
  rcases he : bus_containers_ensure_address_template env w.containers o with ⟨addr?, c₂, o₂⟩
  rw [he] at hef
  simp only [] at hef
  unfold bus_container_instance_listen at hl
  rw [he] at hl
  repeat' split at hl
  all_goals (simp only [Prod.mk.injEq] at hl; obtain ⟨rfl, rfl, rfl, rfl⟩ := hl; simp_all)

/-- Registry contents after `_dbus_hash_table_remove_string`. -/
theorem hashTableRemoveString_getD (c : BusContainers) (p : String) :
    (hashTableRemoveString c p).instancesByPath.getD [] =
      removeKey (c.instancesByPath.getD []) p := by
  unfold hashTableRemoveString
  split <;> simp_all [removeKey]

/-- `_dbus_hash_table_remove_string` leaves the counter alone. -/
theorem hashTableRemoveString_counter (c : BusContainers) (p : String) :
    (hashTableRemoveString c p).nextContainerId = c.nextContainerId := by
  unfold hashTableRemoveString
  split <;> simp_all

/-- `_dbus_hash_table_remove_string` leaves the template alone. -/
theorem hashTableRemoveString_template (c : BusContainers) (p : String) :
    (hashTableRemoveString c p).addressTemplate = c.addressTemplate := by
  unfold hashTableRemoveString
  split <;> simp_all

/-- The `oom:`/`fail:` unwind path, evaluated on the record shapes that can
reach it inside `bus_containers_handle_add_server`: the handler still holds
its reference, the path was assigned, and the accept callback holds a
reference iff its installation completed. -/
theorem handleFail_spec (w : World) (inst : BusContainerInstance)
    (e : DBusErr) (recA : Bool) (o : Oracle)
    (hp : inst.hasPath = true)
    (hshape : (inst.refcount = 1 ∧ inst.serverHoldsRef = false) ∨
              (inst.refcount = 2 ∧ inst.serverHoldsRef = true ∧
               inst.server.isSome)) :
    handleFail w (some inst) e recA o =
      (⟨.err e,
        { containers := hashTableRemoveString w.containers (pathOfId inst.id),
          openServers :=
            w.openServers - (if inst.server.isSome then 1 else 0) },
        recA⟩, o) := by
  obtain ⟨h1, h2⟩ | ⟨h1, h2, h3⟩ := hshape <;>
    cases hs : inst.server <;>
      simp_all [handleFail, handleFailPath,
        bus_container_instance_stop_listening, bus_container_instance_unref,
        bus_container_instance_ref]

/-- `bus_container_instance_unref` above the last reference: no effect on
the world, only the count drops. -/
theorem unref_not_last (w : World) (self : BusContainerInstance)
    (h : self.refcount = 2) :
    bus_container_instance_unref w self =
      (w, some { self with refcount := self.refcount - 1 }, true) := by
  unfold bus_container_instance_unref
  rw [if_neg (by omega)]

/-- Frame conditions of `addServerReply`, for the record shape produced by
a successful listen: success returns the record's path and leaves the world
unchanged; failure unwinds the registry entry and the listening socket. -/
theorem reply_spec (w : World) (inst : BusContainerInstance) (o : Oracle)
    (out : HandleOutcome) (o' : Oracle)
    (hout : addServerReply w inst o = (out, o'))
    (hp : inst.hasPath = true)
    (hrc : inst.refcount = 2) (hsh : inst.serverHoldsRef = true)
    (hsrv : inst.server.isSome) :
    out.world.containers.nextContainerId = w.containers.nextContainerId ∧
    (∀ p, out.result = .ok p →
       p = pathOfId inst.id ∧
       out.world.containers.instancesByPath = w.containers.instancesByPath ∧
       out.world.openServers = w.openServers) ∧
    (∀ e, out.result = .err e →
       out.world.containers.instancesByPath.getD [] =
         removeKey (w.containers.instancesByPath.getD []) (pathOfId inst.id) ∧
       out.world.openServers = w.openServers - 1) ∧
    out.result ≠ .crashed := by
  unfold addServerReply at hout
  rcases hR : replySequence o with ⟨bR, o₂⟩
  rw [hR] at hout
  simp only [] at hout
  cases bR with
  | false =>
    rw [handleFail_spec _ _ _ _ _ hp (Or.inr ⟨hrc, hsh, hsrv⟩)] at hout
    injection hout with h1 h2
    subst h1
    refine ⟨hashTableRemoveString_counter _ _, ?_, ?_, by simp⟩
    · intro p hp'
      simp at hp'
    · intro e he
      exact ⟨hashTableRemoveString_getD _ _, by simp [hsrv]⟩
  | true =>
    rw [if_neg (by decide), unref_not_last _ _ hrc] at hout
    simp only [] at hout
    injection hout with h1 h2
    subst h1
    refine ⟨rfl, ?_, ?_, by simp⟩
    · intro p hp'
      simp only [HandleResult.ok.injEq] at hp'
      exact ⟨hp'.symm, rfl, rfl⟩
    · intro e he
      simp at he

/-- Frame conditions of `addServerListen`, for the record shape that
reaches it (freshly created, path assigned, not yet listening). -/
theorem listenPhase_spec (env : Env) (w : World)
    (inst : BusContainerInstance) (o : Oracle)
    (out : HandleOutcome) (o' : Oracle)
    (hout : addServerListen env w inst o = (out, o'))
    (hp : inst.hasPath = true)
    (hrc : inst.refcount = 1) (hsh : inst.serverHoldsRef = false)
    (hsrv : inst.server = none) :
    out.world.containers.nextContainerId = w.containers.nextContainerId ∧
    (∀ p, out.result = .ok p →
       p = pathOfId inst.id ∧
       out.world.containers.instancesByPath = w.containers.instancesByPath ∧
       out.world.openServers = w.openServers + 1) ∧
    (∀ e, out.result = .err e →
       out.world.containers.instancesByPath.getD [] =
         removeKey (w.containers.instancesByPath.getD []) (pathOfId inst.id) ∧
       out.world.openServers = w.openServers) ∧
    out.result ≠ .crashed := by
  unfold addServerListen at hout
  rcases hl : bus_container_instance_listen env w inst o with ⟨r, w₄, inst₃, o₇⟩
  rw [hl] at hout
  obtain ⟨hlreg, hlcnt, hlid, hlhp, hlok, hlerr⟩ :=
    listen_spec _ _ _ _ _ _ _ _ hsrv hl
  simp only [] at hout
  cases r with
  | error e =>
    simp only [] at hout
    obtain ⟨hrc3, hsh3, hdisj⟩ := hlerr e rfl
    rw [handleFail_spec _ _ _ _ _ (hlhp.trans hp)
        (Or.inl ⟨hrc3.trans hrc, hsh3.trans hsh⟩)] at hout
    injection hout with h1 h2
    subst h1
    refine ⟨?_, ?_, ?_, by simp⟩
    · rw [hashTableRemoveString_counter, hlcnt]
    · intro p hp'
      simp at hp'
    · intro e' he'
      refine ⟨?_, ?_⟩
      · rw [hashTableRemoveString_getD, hlreg, hlid]
      · rcases hdisj with ⟨hn, ho⟩ | ⟨hs, ho⟩
        · simp [hn, ho]
        · simp [hs, ho]
  | ok u =>
    cases u
    simp only [] at hout
    obtain ⟨hopen4, hrc3, hsh3, sx, hs3, hauth⟩ := hlok rfl
    obtain ⟨rcnt, rok, rerr, rcr⟩ :=
      reply_spec _ _ _ _ _ hout (hlhp.trans hp) (by rw [hrc3, hrc]) hsh3
        (by rw [hs3]; rfl)
    refine ⟨rcnt.trans hlcnt, ?_, ?_, rcr⟩
    · intro p hp'
      obtain ⟨hpp, hreg, hop⟩ := rok p hp'
      exact ⟨hpp.trans (congrArg pathOfId hlid), hreg.trans hlreg,
             by rw [hop, hopen4]⟩
    · intro e he
      obtain ⟨hreg, hop⟩ := rerr e he
      refine ⟨?_, ?_⟩
      · rw [hreg, hlreg, hlid]
      · rw [hop, hopen4]
        omega

/-- Frame conditions of `addServerRegister`: on success exactly the new
record's entry is prepended to the registry; on failure the registry
entries and open-socket count are as before. -/
theorem register_spec (env : Env) (w : World)
    (inst : BusContainerInstance) (o : Oracle)
    (out : HandleOutcome) (o' : Oracle)
    (hout : addServerRegister env w inst o = (out, o'))
    (hp : inst.hasPath = true)
    (hrc : inst.refcount = 1) (hsh : inst.serverHoldsRef = false)
    (hsrv : inst.server = none)
    (hkeyfresh : ∀ kv ∈ w.containers.instancesByPath.getD [],
        kv.1 ≠ pathOfId inst.id) :
    out.world.containers.nextContainerId = w.containers.nextContainerId ∧
    (∀ p, out.result = .ok p →
       p = pathOfId inst.id ∧
       out.world.containers.instancesByPath =
         some ((p, inst.id) :: w.containers.instancesByPath.getD []) ∧
       out.world.openServers = w.openServers + 1) ∧
    (∀ e, out.result = .err e →
       out.world.containers.instancesByPath.getD [] =
         w.containers.instancesByPath.getD [] ∧
       out.world.openServers = w.openServers) ∧
    out.result ≠ .crashed := by
  have hfreshrem : removeKey (w.containers.instancesByPath.getD [])
      (pathOfId inst.id) = w.containers.instancesByPath.getD [] :=
    removeKey_of_not_mem hkeyfresh
  unfold addServerRegister at hout
  cases hti : w.containers.instancesByPath with
  | none =>
    rw [hti] at hout
    simp only [] at hout
    rcases ht4 : Oracle.take o with ⟨b4, o₅⟩
    rw [ht4] at hout
    simp only [] at hout
    cases b4 with
    | false =>
      rw [if_pos (show (!false) = true by decide)] at hout
      simp only [] at hout
      rw [if_pos (show (!false) = true by decide)] at hout
      rw [handleFail_spec _ _ _ _ _ hp (Or.inl ⟨hrc, hsh⟩)] at hout
      injection hout with h1 h2
      subst h1
      refine ⟨hashTableRemoveString_counter _ _, ?_, ?_, by simp⟩
      · intro p hp'
        simp at hp'
      · intro e he
        refine ⟨?_, by simp [hsrv]⟩
        rw [hashTableRemoveString_getD, hfreshrem, hti]
    | true =>
      rw [if_neg (show ¬((!true) = true) by decide)] at hout
      try simp only [] at hout
      rw [if_neg (show ¬((!true) = true) by decide)] at hout
      rcases ht5 : Oracle.take o₅ with ⟨b5, o₆⟩
      rw [ht5] at hout
      simp only [] at hout
      cases b5 with
      | false =>
        rw [handleFail_spec _ _ _ _ _ hp (Or.inl ⟨hrc, hsh⟩)] at hout
        injection hout with h1 h2
        subst h1
        refine ⟨hashTableRemoveString_counter _ _, ?_, ?_, by simp⟩
        · intro p hp'
          simp at hp'
        · intro e he
          refine ⟨?_, by simp [hsrv]⟩
          rw [hashTableRemoveString_getD]
          simp [removeKey, hti]
      | true =>
        rw [if_neg (show ¬((!true) = true) by decide)] at hout
        try simp only [] at hout
        obtain ⟨lcnt, lok, lerr, lcr⟩ :=
          listenPhase_spec _ _ _ _ _ _ hout hp hrc hsh hsrv
        refine ⟨lcnt, ?_, ?_, lcr⟩
        · intro p hp'
          obtain ⟨hpp, hreg, hop⟩ := lok p hp'
          refine ⟨hpp, ?_, hop⟩
          rw [hreg]
          simp [hti, hpp]
        · intro e he
          obtain ⟨hreg, hop⟩ := lerr e he
          refine ⟨?_, hop⟩
          rw [hreg]
          simp [removeKey, hti]
  | some ltab =>
    rw [hti] at hout
    try simp only [] at hout
    rw [if_neg (show ¬((!true) = true) by decide)] at hout
    rcases ht5 : Oracle.take o with ⟨b5, o₆⟩
    rw [ht5] at hout
    simp only [] at hout
    cases b5 with
    | false =>
      rw [handleFail_spec _ _ _ _ _ hp (Or.inl ⟨hrc, hsh⟩)] at hout
      injection hout with h1 h2
      subst h1
      refine ⟨hashTableRemoveString_counter _ _, ?_, ?_, by simp⟩
      · intro p hp'
        simp at hp'
      · intro e he
        refine ⟨?_, by simp [hsrv]⟩
        rw [hashTableRemoveString_getD]
        have hff := hfreshrem
        simp only [hti] at hff ⊢
        exact hff
    | true =>
      rw [if_neg (show ¬((!true) = true) by decide)] at hout
      try simp only [] at hout
      obtain ⟨lcnt, lok, lerr, lcr⟩ :=
        listenPhase_spec _ _ _ _ _ _ hout hp hrc hsh hsrv
      refine ⟨lcnt, ?_, ?_, lcr⟩
      · intro p hp'
        obtain ⟨hpp, hreg, hop⟩ := lok p hp'
        refine ⟨hpp, ?_, hop⟩
        rw [hreg]
        simp [hti, hpp]
      · intro e he
        obtain ⟨hreg, hop⟩ := lerr e he
        refine ⟨?_, hop⟩
        rw [hreg]
        simp only [Option.getD_some, removeKey_cons_self]
        have hff := hfreshrem
        simp only [hti] at hff ⊢
        exact hff

/-- Frame conditions of `addServerArgs`. -/
theorem args_spec (env : Env) (w : World) (inst : BusContainerInstance)
    (args : CreateArgs) (o : Oracle) (out : HandleOutcome) (o' : Oracle)
    (hout : addServerArgs env w inst args o = (out, o'))
    (hp : inst.hasPath = true)
    (hrc : inst.refcount = 1) (hsh : inst.serverHoldsRef = false)
    (hsrv : inst.server = none)
    (hkeyfresh : ∀ kv ∈ w.containers.instancesByPath.getD [],
        kv.1 ≠ pathOfId inst.id) :
    out.world.containers.nextContainerId = w.containers.nextContainerId ∧
    (∀ p, out.result = .ok p →
       p = pathOfId inst.id ∧
       out.world.containers.instancesByPath =
         some ((p, inst.id) :: w.containers.instancesByPath.getD []) ∧
       out.world.openServers = w.openServers + 1) ∧
    (∀ e, out.result = .err e →
       out.world.containers.instancesByPath.getD [] =
         w.containers.instancesByPath.getD [] ∧
       out.world.openServers = w.openServers) ∧
    (out.result = .crashed → out.world = w) := by
  have hfreshrem : removeKey (w.containers.instancesByPath.getD [])
      (pathOfId inst.id) = w.containers.instancesByPath.getD [] :=
    removeKey_of_not_mem hkeyfresh
  unfold addServerArgs at hout
  rcases ht1 : Oracle.take o with ⟨b1, o₂⟩
  rw [ht1] at hout
  simp only [] at hout
  cases b1 with
  | false =>
    rw [handleFail_spec _ _ _ _ _ hp (Or.inl ⟨hrc, hsh⟩)] at hout
    injection hout with h1 h2
    subst h1
    refine ⟨hashTableRemoveString_counter _ _, ?_, ?_, by simp⟩
    · intro p hp'
      simp at hp'
    · intro e he
      refine ⟨?_, by simp [hsrv]⟩
      rw [hashTableRemoveString_getD, hfreshrem]
  | true =>
    rw [if_neg (show ¬((!true) = true) by decide)] at hout
    split at hout
    case isTrue hval =>
      rw [handleFail_spec _ { inst with type_ := some args.type_ } _ _ _ hp
          (Or.inl ⟨hrc, hsh⟩)] at hout
      injection hout with h1 h2
      subst h1
      refine ⟨hashTableRemoveString_counter _ _, ?_, ?_, by simp⟩
      · intro p hp'
        simp at hp'
      · intro e he
        refine ⟨?_, by simp [hsrv]⟩
        rw [hashTableRemoveString_getD]
        exact hfreshrem
    case isFalse hval =>
      rcases ht2 : Oracle.take o₂ with ⟨b2, o₃⟩
      rw [ht2] at hout
      simp only [] at hout
      cases b2 with
      | false =>
        rw [handleFail_spec _ { inst with type_ := some args.type_ } _ _ _ hp
            (Or.inl ⟨hrc, hsh⟩)] at hout
        injection hout with h1 h2
        subst h1
        refine ⟨hashTableRemoveString_counter _ _, ?_, ?_, by simp⟩
        · intro p hp'
          simp at hp'
        · intro e he
          refine ⟨?_, by simp [hsrv]⟩
          rw [hashTableRemoveString_getD]
          exact hfreshrem
      | true =>
        rw [if_neg (show ¬((!true) = true) by decide)] at hout
        rcases ht3 : Oracle.take o₃ with ⟨b3, o₄⟩
        rw [ht3] at hout
        simp only [] at hout
        cases b3 with
        | false =>
          injection hout with h1 h2
          subst h1
          refine ⟨rfl, ?_, ?_, fun _ => rfl⟩
          · intro p hp'
            simp at hp'
          · intro e he
            simp at he
        | true =>
          rw [if_neg (show ¬((!true) = true) by decide)] at hout
          cases hnp : args.namedParams with
          | cons paramName rest =>
            rw [hnp] at hout
            simp only [] at hout
            rw [handleFail_spec _
                { inst with type_ := some args.type_, name := some args.name,
                            metadata := some args.metadata } _ _ _ hp
                (Or.inl ⟨hrc, hsh⟩)] at hout
            injection hout with h1 h2
            subst h1
            refine ⟨hashTableRemoveString_counter _ _, ?_, ?_, by simp⟩
            · intro p hp'
              simp at hp'
            · intro e he
              refine ⟨?_, by simp [hsrv]⟩
              rw [hashTableRemoveString_getD]
              exact hfreshrem
          | nil =>
            rw [hnp] at hout
            simp only [] at hout
            obtain ⟨ra, rb, rc, rd⟩ := register_spec _ _
              { inst with type_ := some args.type_, name := some args.name,
                          metadata := some args.metadata } _ _ _ hout hp hrc hsh
              hsrv hkeyfresh
            exact ⟨ra, rb, rc, fun h => absurd h rd⟩

/-- Frame conditions of `bus_containers_handle_add_server`: the counter
advances by at most one; a successful call returns the pre-call counter's
object path, registers exactly that entry, advances the counter by exactly
one and leaves one more socket open; a failed or crashed call leaves the
registry entries and the open-socket count unchanged. -/
theorem handle_add_server_frame (env : Env) (w : World) (args : CreateArgs)
    (o : Oracle) (out : HandleOutcome) (o' : Oracle)
    (hout : bus_containers_handle_add_server env w args o = (out, o'))
    (hfresh : ∀ kv ∈ w.containers.instancesByPath.getD [],
        kv.1 ≠ pathOfId w.containers.nextContainerId) :
    (w.containers.nextContainerId ≤ out.world.containers.nextContainerId ∧
     out.world.containers.nextContainerId ≤ w.containers.nextContainerId + 1) ∧
    (∀ p, out.result = .ok p →
       p = pathOfId w.containers.nextContainerId ∧
       out.world.containers.nextContainerId = w.containers.nextContainerId + 1 ∧
       out.world.containers.instancesByPath =
         some ((p, w.containers.nextContainerId) ::
               w.containers.instancesByPath.getD []) ∧
       out.world.openServers = w.openServers + 1) ∧
    (((∃ e, out.result = .err e) ∨ out.result = .crashed) →
       out.world.containers.instancesByPath.getD [] =
         w.containers.instancesByPath.getD [] ∧
       out.world.openServers = w.openServers) := by
  have hin := instance_new_spec w.containers o
  rcases hnr : bus_container_instance_new w.containers o with ⟨res, c₁, o₁, rec⟩
  rw [hnr] at hin
  simp only [] at hin
  obtain ⟨hreg₁, htmp₁, hlo₁, hhi₁, hok₁⟩ := hin
  unfold bus_containers_handle_add_server at hout
  rw [hnr] at hout
  simp only [] at hout
  cases res with
  | error e =>
    simp only [] at hout
    injection hout with h1 h2
    subst h1
    refine ⟨⟨hlo₁, hhi₁⟩, ?_, ?_⟩
    · intro p hp
      simp at hp
    · intro _
      exact ⟨by simp only [hreg₁], rfl⟩
  | ok inst =>
    obtain ⟨hinst, hc₁⟩ := hok₁ inst rfl
    subst hinst
    simp only [] at hout
    obtain ⟨acnt, aok, aerr, acr⟩ :=
      args_spec _ _ _ _ _ _ _ hout rfl rfl rfl rfl
        (by intro kv hkv
            simp only [hreg₁] at hkv
            exact hfresh kv hkv)
    refine ⟨?_, ?_, ?_⟩
    · rw [acnt]
      simp only [hc₁]
      omega
    · intro p hp'
      obtain ⟨hpp, hreg, hop⟩ := aok p hp'
      refine ⟨hpp, ?_, ?_, hop⟩
      · rw [acnt]
        simp only [hc₁]
      · rw [hreg]
        simp only [hreg₁]
    · intro hc
      rcases hc with ⟨e, he⟩ | he
      · obtain ⟨hreg, hop⟩ := aerr e he
        refine ⟨?_, hop⟩
        rw [hreg]
        simp only [hreg₁]
      · have hw := acr he
        rw [hw]
        exact ⟨by simp only [hreg₁], rfl⟩

/-! ## Trace invariants: counter-derived paths, uniqueness, stale lookups -/

theorem assocLookup_cons_ne {kv : String × Nat} {t : List (String × Nat)}
    {p : String} (h : kv.1 ≠ p) :
    assocLookup (kv :: t) p = assocLookup t p := by
  simp [assocLookup, h]

theorem mem_createdPaths {p : String} {evs : List Ev} :
    p ∈ createdPaths evs ↔ Ev.created p ∈ evs := by
  unfold createdPaths
  rw [List.mem_filterMap]
  constructor
  · rintro ⟨e, he, hfe⟩
    cases e <;> simp_all
  · intro h
    exact ⟨Ev.created p, h, rfl⟩

theorem createdPaths_append (a b : List Ev) :
    createdPaths (a ++ b) = createdPaths a ++ createdPaths b := by
  unfold createdPaths
  exact List.filterMap_append a b _

theorem mem_of_mem_removeKey {kv : String × Nat} {l : List (String × Nat)}
    {p : String} (h : kv ∈ removeKey l p) : kv ∈ l :=
  (List.mem_filter.mp h).1

/-- Freshness of the next path: no current registry entry carries the path
the counter will assign next. -/
theorem RegInv_fresh {w : World} (h : RegInv w) :
    ∀ kv ∈ w.containers.instancesByPath.getD [],
      kv.1 ≠ pathOfId w.containers.nextContainerId := by
  intro kv hkv heq
  obtain ⟨hpath, hlt⟩ := h kv hkv
  rw [hpath] at heq
  exact absurd (pathOfId_inj heq) (by omega)

/-- The inductive invariant carried along a broker trace: the registry is
well formed, every path ever returned was minted below the counter, no path
is returned twice, and a removed path is absent from the registry. -/
def TraceInv (w : World) (evs : List Ev) : Prop :=
  RegInv w ∧
  (∀ p, Ev.created p ∈ evs →
     ∃ i, p = pathOfId i ∧ i < w.containers.nextContainerId) ∧
  (createdPaths evs).Nodup ∧
  (∀ p, Ev.removed p ∈ evs →
     lookupByPath w.containers p = none ∧
     ∃ i, p = pathOfId i ∧ i < w.containers.nextContainerId)

theorem stepOp_preserves (env : Env) (w : World) (op : Op) (evs : List Ev)
    (hinv : TraceInv w evs) :
    TraceInv (stepOp env w op).1 (evs ++ [(stepOp env w op).2]) := by
  obtain ⟨hreg, hcre, hnd, hrem⟩ := hinv
  cases op with
  | create args o =>
    rcases hs : bus_containers_handle_add_server env w args o with ⟨out, oRem⟩
    have hfr := handle_add_server_frame env w args o out oRem hs (RegInv_fresh hreg)
    obtain ⟨⟨hclo, hchi⟩, hok, herr⟩ := hfr
    simp only [stepOp, hs]
    cases hres : out.result with
    | ok p =>
      obtain ⟨hpp, hcnt, hregs, _⟩ := hok p hres
      refine ⟨?_, ?_, ?_, ?_⟩
      · intro kv hkv
        rw [hregs] at hkv
        simp only [Option.getD_some, List.mem_cons] at hkv
        rcases hkv with rfl | hkv
        · exact ⟨hpp, by omega⟩
        · obtain ⟨h1, h2⟩ := hreg kv hkv
          exact ⟨h1, by omega⟩
      · intro q hq
        rw [List.mem_append] at hq
        rcases hq with hq | hq
        · obtain ⟨i, hi, hib⟩ := hcre q hq
          exact ⟨i, hi, by omega⟩
        · simp at hq
          rw [hq, hpp]
          exact ⟨w.containers.nextContainerId, rfl, by omega⟩
      · rw [createdPaths_append, List.nodup_append]
        refine ⟨hnd, by simp [createdPaths], ?_⟩
        intro q hq hq'
        have hq2 : q = p := by simpa [createdPaths] using hq'
        obtain ⟨i, hi, hib⟩ := hcre q (mem_createdPaths.mp hq)
        rw [hq2, hpp] at hi
        exact absurd (pathOfId_inj hi.symm) (by omega)
      · intro q hq
        rw [List.mem_append] at hq
        rcases hq with hq | hq
        · obtain ⟨hlq, i, hi, hib⟩ := hrem q hq
          refine ⟨?_, i, hi, by omega⟩
          unfold lookupByPath at hlq ⊢
          rw [hregs]
          simp only [Option.getD_some]
          rw [assocLookup_cons_ne]
          · exact hlq
          · rw [hpp, hi]
            intro hcontra
            exact absurd (pathOfId_inj hcontra) (by omega)
        · simp at hq
    | err e =>
      obtain ⟨hregs, _⟩ := herr (Or.inl ⟨e, hres⟩)
      refine ⟨?_, ?_, ?_, ?_⟩
      · intro kv hkv
        rw [hregs] at hkv
        obtain ⟨h1, h2⟩ := hreg kv hkv
        exact ⟨h1, by omega⟩
      · intro q hq
        rw [List.mem_append] at hq
        rcases hq with hq | hq
        · obtain ⟨i, hi, hib⟩ := hcre q hq
          exact ⟨i, hi, by omega⟩
        · simp at hq
      · rw [createdPaths_append]
        simpa [createdPaths] using hnd
      · intro q hq
        rw [List.mem_append] at hq
        rcases hq with hq | hq
        · obtain ⟨hlq, i, hi, hib⟩ := hrem q hq
          refine ⟨?_, i, hi, by omega⟩
          unfold lookupByPath at hlq ⊢
          rw [hregs]
          exact hlq
        · simp at hq
    | crashed =>
      obtain ⟨hregs, _⟩ := herr (Or.inr hres)
      refine ⟨?_, ?_, ?_, ?_⟩
      · intro kv hkv
        rw [hregs] at hkv
        obtain ⟨h1, h2⟩ := hreg kv hkv
        exact ⟨h1, by omega⟩
      · intro q hq
        rw [List.mem_append] at hq
        rcases hq with hq | hq
        · obtain ⟨i, hi, hib⟩ := hcre q hq
          exact ⟨i, hi, by omega⟩
        · simp at hq
      · rw [createdPaths_append]
        simpa [createdPaths] using hnd
      · intro q hq
        rw [List.mem_append] at hq
        rcases hq with hq | hq
        · obtain ⟨hlq, i, hi, hib⟩ := hrem q hq
          refine ⟨?_, i, hi, by omega⟩
          unfold lookupByPath at hlq ⊢
          rw [hregs]
          exact hlq
        · simp at hq
  | removeInstance p =>
    simp only [stepOp]
    cases hl : lookupByPath w.containers p with
    | some v =>
      simp only []
      have hmem : (p, v) ∈ w.containers.instancesByPath.getD [] :=
        assocLookup_some_mem hl
      obtain ⟨hpv, hvb⟩ := hreg (p, v) hmem
      refine ⟨?_, ?_, ?_, ?_⟩
      · intro kv hkv
        rw [hashTableRemoveString_getD] at hkv
        have hx := hreg kv (mem_of_mem_removeKey hkv)
        simp only [hashTableRemoveString_counter]
        exact hx
      · intro q hq
        rw [List.mem_append] at hq
        rcases hq with hq | hq
        · have hx := hcre q hq
          simp only [hashTableRemoveString_counter]
          exact hx
        · simp at hq
      · rw [createdPaths_append]
        simpa [createdPaths] using hnd
      · intro q hq
        rw [List.mem_append] at hq
        rcases hq with hq | hq
        · obtain ⟨hlq, i, hi, hib⟩ := hrem q hq
          refine ⟨?_, i, hi, by simp only [hashTableRemoveString_counter]; exact hib⟩
          unfold lookupByPath at hlq ⊢
          rw [hashTableRemoveString_getD]
          exact assocLookup_none_removeKey p hlq
        · simp at hq
          subst hq
          refine ⟨?_, v, hpv, by simp only [hashTableRemoveString_counter]; exact hvb⟩
          unfold lookupByPath
          rw [hashTableRemoveString_getD]
          exact assocLookup_removeKey_self _ _
    | none =>
      simp only []
      refine ⟨hreg, ?_, ?_, ?_⟩
      · intro q hq
        rw [List.mem_append] at hq
        rcases hq with hq | hq
        · exact hcre q hq
        · simp at hq
      · rw [createdPaths_append]
        simpa [createdPaths] using hnd
      · intro q hq
        rw [List.mem_append] at hq
        rcases hq with hq | hq
        · exact hrem q hq
        · simp at hq

theorem run_inv (env : Env) (ops : List Op) :
    ∀ w evs, TraceInv w evs →
      TraceInv (run env w ops).1 (evs ++ (run env w ops).2) := by
  induction ops with
  | nil =>
    intro w evs h
    simpa [run]
  | cons op rest ih =>
    intro w evs h
    have hstep := stepOp_preserves env w op evs h
    unfold run
    rcases hst : stepOp env w op with ⟨w₁, e⟩
    rw [hst] at hstep
    simp only [] at hstep ⊢
    by_cases he : e = Ev.crashed
    · rw [if_pos he]
      simpa using hstep
    · rw [if_neg he]
      rcases hr : run env w₁ rest with ⟨w₂, evs₂⟩
      have := ih w₁ (evs ++ [e]) hstep
      rw [hr] at this
      simp only [] at this ⊢
      rw [List.append_assoc] at this
      simpa using this

/-! ## Lifecycle safety: the destructor assertion `server == NULL` -/

/-- Full characterization of `bus_container_instance_stop_listening` on a
live record: the survivor (if any) has its listener cleared and stays
referenced, no destructor assertion fires, the teardown events occur in
source order exactly when a server was attached, and the callback's
self-reference is released. -/
theorem stop_spec (w : World) (self : BusContainerInstance)
    (hrc : 1 ≤ self.refcount) :
    (∀ self', (bus_container_instance_stop_listening w self).2.1 = some self' →
       self'.server = none ∧ 1 ≤ self'.refcount) ∧
    (bus_container_instance_stop_listening w self).2.2.2 = true ∧
    ((bus_container_instance_stop_listening w self).2.2.1 =
       if self.server.isSome then
         [TeardownEv.detachCallback, TeardownEv.disconnect, TeardownEv.closeServer]
       else []) ∧
    (self.server.isSome → self.serverHoldsRef = true →
       ((bus_container_instance_stop_listening w self).2.1 = none ∧
          self.refcount = 1) ∨
       (∃ i, (bus_container_instance_stop_listening w self).2.1 = some i ∧
          i.serverHoldsRef = false ∧ i.refcount + 1 = self.refcount)) := by
  cases hs : self.server with
  | none =>
    unfold bus_container_instance_stop_listening
    simp only [bus_container_instance_ref, hs]
    unfold bus_container_instance_unref
    rw [if_neg (by simp; omega)]
    simp only [hs, Option.isSome_none]
    refine ⟨?_, by simp, by simp, ?_⟩
    · intro self' h
      simp only [Option.some.injEq] at h
      subst h
      exact ⟨rfl, by simp; omega⟩
    · intro hsome
      simp [hs] at hsome
  | some srv =>
    unfold bus_container_instance_stop_listening
    simp only [bus_container_instance_ref, hs]
    by_cases hh : self.serverHoldsRef
    · rw [if_pos (by simp [hh])]
      unfold bus_container_instance_unref
      rw [if_neg (by simp; omega)]
      simp only []
      by_cases h2 : self.refcount ≤ 1
      · rw [if_pos (by simp; omega)]
        simp only [hs, Option.isSome_some]
        refine ⟨?_, by simp, by simp, ?_⟩
        · intro self' h
          simp at h
        · intro _ _
          left
          exact ⟨by simp, by omega⟩
      · rw [if_neg (by simp; omega)]
        simp only [hs, Option.isSome_some]
        refine ⟨?_, by simp, by simp, ?_⟩
        · intro self' h
          simp only [Option.some.injEq] at h
          subst h
          exact ⟨rfl, by simp; omega⟩
        · intro _ _
          right
          exact ⟨_, rfl, by simp, by simp; omega⟩
    · rw [if_neg (by simp [hh])]
      simp only []
      unfold bus_container_instance_unref
      rw [if_neg (by simp; omega)]
      simp only [hs, Option.isSome_some]
      refine ⟨?_, by simp, by simp, ?_⟩
      · intro self' h
        simp only [Option.some.injEq] at h
        subst h
        exact ⟨rfl, by simp; omega⟩
      · intro _ hcontra
        exact absurd hcontra (by simp [hh])

/-- The record-lifecycle invariant maintained by this file's call sites:
the record is live, and while the listener handle is attached the accept
callback's self-reference is included in the refcount. -/
def LifecycleInv (self : BusContainerInstance) : Prop :=
  1 ≤ self.refcount ∧ (self.server.isSome → self.serverHoldsRef = true)

theorem reach_inv (env : Env) :
    ∀ w self, ReachInst env w self → LifecycleInv self := by
  intro w self h
  induction h with
  | new w c o inst hok =>
    obtain ⟨hinst, _⟩ := (instance_new_spec c o).2.2.2.2 inst hok
    subst hinst
    exact ⟨by simp, by simp⟩
  | step w self op w' self' ok hr hleg hstep ih =>
    obtain ⟨ihrc, ihsrv⟩ := ih
    cases op with
    | acquireRef =>
      simp only [lifecycleStep, Prod.mk.injEq] at hstep
      obtain ⟨rfl, h2, rfl⟩ := hstep
      injection h2 with h2
      subst h2
      refine ⟨by simp [bus_container_instance_ref], ?_⟩
      exact fun hsome => ihsrv hsome
    | releaseRef =>
      simp only [lifecycleStep] at hstep
      unfold bus_container_instance_unref at hstep
      split at hstep
      · simp at hstep
      · simp only [Prod.mk.injEq] at hstep
        obtain ⟨rfl, h2, rfl⟩ := hstep
        injection h2 with h2
        subst h2
        refine ⟨by simp; omega, ?_⟩
        exact fun hsome => ihsrv hsome
    | listenAndUnwind o =>
      simp only [lifecycleStep] at hstep
      rcases hl : bus_container_instance_listen env w self o
        with ⟨r, w₄, inst₃, o₇⟩
      rw [hl] at hstep
      simp only [] at hstep
      obtain ⟨hlreg, hlcnt, hlid, hlhp, hlok, hlerr⟩ :=
        listen_spec _ _ _ _ _ _ _ _ hleg hl
      cases r with
      | ok u =>
        cases u
        simp only [Prod.mk.injEq] at hstep
        obtain ⟨rfl, h2, rfl⟩ := hstep
        injection h2 with h2
        subst h2
        obtain ⟨_, hrc3, hsh3, sx, hs3, _⟩ := hlok rfl
        exact ⟨by omega, fun _ => hsh3⟩
      | error e =>
        simp only [] at hstep
        obtain ⟨hrc3, hsh3, _⟩ := hlerr e rfl
        have hst := stop_spec w₄ inst₃ (by omega)
        rcases hq : bus_container_instance_stop_listening w₄ inst₃
          with ⟨w₅, self₅?, evs₅, ok₅⟩
        rw [hq] at hstep hst
        simp only [] at hstep hst
        simp only [Prod.mk.injEq] at hstep
        obtain ⟨rfl, h2, rfl⟩ := hstep
        obtain ⟨hsome', _, _, _⟩ := hst
        obtain ⟨hsrv', hrc'⟩ := hsome' self' h2
        exact ⟨hrc', by simp [hsrv']⟩
    | stopListening =>
      simp only [lifecycleStep] at hstep
      have hst := stop_spec w self ihrc
      rcases hq : bus_container_instance_stop_listening w self
        with ⟨w₅, self₅?, evs₅, ok₅⟩
      rw [hq] at hstep hst
      simp only [] at hstep hst
      simp only [Prod.mk.injEq] at hstep
      obtain ⟨rfl, h2, rfl⟩ := hstep
      obtain ⟨hsome', _, _, _⟩ := hst
      obtain ⟨hsrv', hrc'⟩ := hsome' self' h2
      exact ⟨hrc', by simp [hsrv']⟩

/-! ## Further frame facts: counter movement and error classification -/

/-- `handleFail` as an equation: the reported error and ghost flag pass
through, only the world is unwound. -/
theorem handleFail_eq (w : World) (i? : Option BusContainerInstance)
    (e : DBusErr) (r : Bool) (o : Oracle) :
    handleFail w i? e r o = (⟨.err e, (handleFailPath w i?).1, r⟩, o) := by
  unfold handleFail
  rcases h : handleFailPath w i? with ⟨w₂, ok₂⟩
  simp [h]

/-- `bus_container_instance_unref` never moves the counter. -/
theorem unref_counter (w : World) (self : BusContainerInstance) :
    (bus_container_instance_unref w self).1.containers.nextContainerId =
      w.containers.nextContainerId := by
  unfold bus_container_instance_unref
  repeat' split
  all_goals simp_all [hashTableRemoveString_counter]

/-- `bus_container_instance_stop_listening` never moves the counter. -/
theorem stop_counter (w : World) (self : BusContainerInstance) :
    (bus_container_instance_stop_listening w self).1.containers.nextContainerId =
      w.containers.nextContainerId := by
  cases hs : self.server with
  | none =>
    unfold bus_container_instance_stop_listening
    simp only [bus_container_instance_ref, hs]
    unfold bus_container_instance_unref
    split
    · split <;> simp [hashTableRemoveString_counter]
    · simp
  | some srv =>
    unfold bus_container_instance_stop_listening
    simp only [bus_container_instance_ref, hs]
    by_cases hh : self.serverHoldsRef
    · rw [if_pos (by simp [hh])]
      unfold bus_container_instance_unref
      by_cases hz : self.refcount + 1 ≤ 1
      · rw [if_pos (show ({ self with refcount := self.refcount + 1, serverHoldsRef := false } : BusContainerInstance).refcount ≤ 1 from hz)]
        simp only []
        split <;> simp [hashTableRemoveString_counter]
      · rw [if_neg (show ¬ ({ self with refcount := self.refcount + 1, serverHoldsRef := false } : BusContainerInstance).refcount ≤ 1 from hz)]
        simp only []
        split
        · split <;> simp [hashTableRemoveString_counter]
        · simp
    · rw [if_neg (by simp [hh])]
      simp only []
      unfold bus_container_instance_unref
      split
      · split <;> simp [hashTableRemoveString_counter]
      · simp

/-- The unwind path never moves the instance counter. -/
theorem handleFailPath_counter (w : World) (i? : Option BusContainerInstance) :
    (handleFailPath w i?).1.containers.nextContainerId =
      w.containers.nextContainerId := by
  cases i? with
  | none => rfl
  | some inst =>
    unfold handleFailPath
    simp only []
    have h1 := stop_counter w inst
    rcases hst : bus_container_instance_stop_listening w inst
      with ⟨w₂, s₂, e₂, k₂⟩
    rw [hst] at h1
    try rw [hst]
    simp only [] at h1 ⊢
    cases s₂ with
    | none => simpa using h1
    | some i₂ =>
      simp only []
      have h2 := unref_counter w₂ i₂
      rcases hu : bus_container_instance_unref w₂ i₂ with ⟨w₃, s₃, k₃⟩
      rw [hu] at h2
      try rw [hu]
      simp only [] at h2 ⊢
      rw [h2, h1]

/-- `bus_container_instance_listen` never moves the counter. -/
theorem listen_counter (env : Env) (w : World) (self : BusContainerInstance)
    (o : Oracle) :
    (bus_container_instance_listen env w self o).2.1.containers.nextContainerId =
      w.containers.nextContainerId := by
  have hef := ensure_template_frame env w.containers o
  rcases he : bus_containers_ensure_address_template env w.containers o
    with ⟨addr?, c₂, o₂⟩
  rw [he] at hef
  simp only [] at hef
  unfold bus_container_instance_listen
  rw [he]
  repeat' split
  all_goals simp_all

/-- `bus_container_instance_listen` never reports counter exhaustion. -/
theorem listen_no_limits (env : Env) (w : World) (self : BusContainerInstance)
    (o : Oracle) :
    ∀ msg, (bus_container_instance_listen env w self o).1 ≠
      .error (.limitsExceeded msg) := by
  rcases he : bus_containers_ensure_address_template env w.containers o
    with ⟨addr?, c₂, o₂⟩
  unfold bus_container_instance_listen
  rw [he]
  repeat' split
  all_goals simp_all

/-- `addServerReply` never moves the counter. -/
theorem addServerReply_counter (w : World) (inst : BusContainerInstance)
    (o : Oracle) :
    (addServerReply w inst o).1.world.containers.nextContainerId =
      w.containers.nextContainerId := by
  unfold addServerReply
  rcases hR : replySequence o with ⟨bR, o₂⟩
  rcases hu : bus_container_instance_unref w inst with ⟨w₂, s₂, f₂⟩
  have hc := unref_counter w inst
  rw [hu] at hc
  simp only [] at hc
  cases bR <;>
    simp_all [handleFail_eq, handleFailPath_counter]

/-- `addServerReply` never reports counter exhaustion. -/
theorem addServerReply_no_limits (w : World) (inst : BusContainerInstance)
    (o : Oracle) :
    ∀ msg, (addServerReply w inst o).1.result ≠
      .err (.limitsExceeded msg) := by
  unfold addServerReply
  rcases hR : replySequence o with ⟨bR, o₂⟩
  rcases hu : bus_container_instance_unref w inst with ⟨w₂, s₂, f₂⟩
  cases bR <;> simp_all [handleFail_eq]

/-- `addServerReply` always carries the allocation ghost flag. -/
theorem addServerReply_rec (w : World) (inst : BusContainerInstance)
    (o : Oracle) :
    (addServerReply w inst o).1.recordAllocated = true := by
  unfold addServerReply
  rcases hR : replySequence o with ⟨bR, o₂⟩
  rcases hu : bus_container_instance_unref w inst with ⟨w₂, s₂, f₂⟩
  cases bR <;> simp_all [handleFail_eq]

/-- `addServerListen` never moves the counter. -/
theorem addServerListen_counter (env : Env) (w : World)
    (inst : BusContainerInstance) (o : Oracle) :
    (addServerListen env w inst o).1.world.containers.nextContainerId =
      w.containers.nextContainerId := by
  unfold addServerListen
  rcases hl : bus_container_instance_listen env w inst o with ⟨r, w₄, i₄, o₄⟩
  have hc := listen_counter env w inst o
  rw [hl] at hc
  simp only [] at hc
  cases r with
  | error e => simp_all [handleFail_eq, handleFailPath_counter]
  | ok u =>
    cases u
    simp only []
    rw [addServerReply_counter]
    exact hc

/-- `addServerListen` never reports counter exhaustion. -/
theorem addServerListen_no_limits (env : Env) (w : World)
    (inst : BusContainerInstance) (o : Oracle) :
    ∀ msg, (addServerListen env w inst o).1.result ≠
      .err (.limitsExceeded msg) := by
  unfold addServerListen
  rcases hl : bus_container_instance_listen env w inst o with ⟨r, w₄, i₄, o₄⟩
  have hnl := listen_no_limits env w inst o
  rw [hl] at hnl
  simp only [] at hnl
  cases r with
  | error e =>
    intro msg
    simp only [handleFail_eq]
    intro hcontra
    simp at hcontra
    exact hnl msg (by rw [hcontra])
  | ok u =>
    cases u
    simp only []
    exact addServerReply_no_limits _ _ _

/-- `addServerListen` always carries the allocation ghost flag. -/
theorem addServerListen_rec (env : Env) (w : World)
    (inst : BusContainerInstance) (o : Oracle) :
    (addServerListen env w inst o).1.recordAllocated = true := by
  unfold addServerListen
  rcases hl : bus_container_instance_listen env w inst o with ⟨r, w₄, i₄, o₄⟩
  cases r with
  | error e => simp_all [handleFail_eq]
  | ok u =>
    cases u
    simp only []
    exact addServerReply_rec _ _ _

/-- Counter movement of `bus_container_instance_new`, keyed on whether the
record allocation was reached: once `dbus_new0` has succeeded, the counter
advances exactly once unless it is already exhausted, in which case it is
left untouched; if the record allocation is never reached, the counter is
untouched. -/
theorem instance_new_counter_of_rec (c : BusContainers) (o : Oracle) :
    ((bus_container_instance_new c o).recordAllocated = true →
       (bus_container_instance_new c o).containers.nextContainerId =
         (if c.nextContainerId < DBUS_UINT64_MAX then c.nextContainerId + 1
          else c.nextContainerId)) ∧
    ((bus_container_instance_new c o).recordAllocated = false →
       (bus_container_instance_new c o).containers.nextContainerId =
         c.nextContainerId) := by
  unfold bus_container_instance_new
  repeat' split
  all_goals simp_all
  all_goals omega

/-- A successful `bus_container_instance_new` reached the record
allocation. -/
theorem instance_new_ok_rec (c : BusContainers) (o : Oracle)
    (inst : BusContainerInstance)
    (h : (bus_container_instance_new c o).result = .ok inst) :
    (bus_container_instance_new c o).recordAllocated = true := by
  unfold bus_container_instance_new at h ⊢
  repeat' split
  all_goals simp_all

/-- The only limits-exceeded error of `bus_container_instance_new` is
counter exhaustion. -/
theorem instance_new_limits_msg (c : BusContainers) (o : Oracle)
    (msg : String)
    (h : (bus_container_instance_new c o).result =
      .error (.limitsExceeded msg)) :
    DBUS_UINT64_MAX ≤ c.nextContainerId := by
  unfold bus_container_instance_new at h
  repeat' split at h
  all_goals simp_all

/-- With an exhausted counter, `bus_container_instance_new` never succeeds
and never moves the counter. -/
theorem instance_new_max_no_ok (c : BusContainers) (o : Oracle)
    (hmax : DBUS_UINT64_MAX ≤ c.nextContainerId) :
    (∀ i, (bus_container_instance_new c o).result ≠ .ok i) ∧
    (bus_container_instance_new c o).containers = c := by
  unfold bus_container_instance_new
  repeat' split
  all_goals simp_all

/-- Evaluation of `bus_container_instance_new` with no injected failures at
an exhausted counter. -/
theorem instance_new_max_eq (c : BusContainers)
    (hmax : DBUS_UINT64_MAX ≤ c.nextContainerId) :
    bus_container_instance_new c Oracle.ok =
      ⟨.error (.limitsExceeded
          "Too many containers created during the lifetime of this bus"),
       c, Oracle.ok, true⟩ := by
  unfold bus_container_instance_new Oracle.ok
  simp only [Oracle.take]
  rw [if_neg (by decide), if_neg (by decide), if_pos hmax]

/-- Evaluation of `bus_container_instance_new` with no injected failures
below exhaustion. -/
theorem instance_new_ok_eq (c : BusContainers)
    (h : c.nextContainerId < DBUS_UINT64_MAX) :
    bus_container_instance_new c Oracle.ok =
      ⟨.ok { refcount := 1, id := c.nextContainerId, hasPath := true,
             type_ := none, name := none, metadata := none, server := none,
             serverHoldsRef := false },
       { c with nextContainerId := c.nextContainerId + 1 }, Oracle.ok, true⟩ := by
  unfold bus_container_instance_new Oracle.ok
  simp only [Oracle.take]
  rw [if_neg (by decide), if_neg (by decide), if_neg (by omega),
    if_neg (by decide), if_neg (by decide)]

/-- Combined unconditional frame facts of `addServerRegister`: the counter
never moves, counter exhaustion is never reported, and the allocation ghost
flag is carried. -/
theorem addServerRegister_facts (env : Env) (w : World)
    (inst : BusContainerInstance) (o : Oracle) :
    (addServerRegister env w inst o).1.world.containers.nextContainerId =
      w.containers.nextContainerId ∧
    (∀ msg, (addServerRegister env w inst o).1.result ≠
      .err (.limitsExceeded msg)) ∧
    (addServerRegister env w inst o).1.recordAllocated = true := by
  unfold addServerRegister
  cases hti : w.containers.instancesByPath with
  | none =>
    simp only []
    rcases ht4 : Oracle.take o with ⟨b4, o₅⟩
    try rw [ht4]
    simp only []
    cases b4 with
    | false =>
      rw [if_pos (show (!false) = true by decide)]
      simp only []
      rw [if_pos (show (!false) = true by decide), handleFail_eq]
      refine ⟨by simpa using handleFailPath_counter w (some inst), by simp, by simp⟩
    | true =>
      rw [if_neg (show ¬((!true) = true) by decide)]
      try simp only []
      rw [if_neg (show ¬((!true) = true) by decide)]
      rcases ht5 : Oracle.take o₅ with ⟨b5, o₆⟩
      try rw [ht5]
      simp only []
      cases b5 with
      | false =>
        rw [if_pos (show (!false) = true by decide), handleFail_eq]
        refine ⟨by simpa using handleFailPath_counter _ (some inst), by simp, by simp⟩
      | true =>
        rw [if_neg (show ¬((!true) = true) by decide)]
        try simp only []
        exact ⟨addServerListen_counter env _ inst o₆,
               addServerListen_no_limits env _ inst o₆,
               addServerListen_rec env _ inst o₆⟩
  | some ltab =>
    simp only []
    rw [if_neg (show ¬((!true) = true) by decide)]
    rcases ht5 : Oracle.take o with ⟨b5, o₆⟩
    try rw [ht5]
    simp only []
    cases b5 with
    | false =>
      rw [if_pos (show (!false) = true by decide), handleFail_eq]
      refine ⟨by simpa using handleFailPath_counter w (some inst), by simp, by simp⟩
    | true =>
      rw [if_neg (show ¬((!true) = true) by decide)]
      try simp only []
      exact ⟨addServerListen_counter env _ inst o₆,
             addServerListen_no_limits env _ inst o₆,
             addServerListen_rec env _ inst o₆⟩

/-- Combined unconditional frame facts of `addServerArgs`: the counter
never moves, counter exhaustion is never reported, and the allocation ghost
flag is carried. -/
theorem addServerArgs_facts (env : Env) (w : World)
    (inst : BusContainerInstance) (args : CreateArgs) (o : Oracle) :
    (addServerArgs env w inst args o).1.world.containers.nextContainerId =
      w.containers.nextContainerId ∧
    (∀ msg, (addServerArgs env w inst args o).1.result ≠
      .err (.limitsExceeded msg)) ∧
    (addServerArgs env w inst args o).1.recordAllocated = true := by
  unfold addServerArgs
  rcases ht1 : Oracle.take o with ⟨b1, o₂⟩
  try rw [ht1]
  simp only []
  cases b1 with
  | false =>
    rw [if_pos (show (!false) = true by decide), handleFail_eq]
    refine ⟨by simpa using handleFailPath_counter w _, by simp, by simp⟩
  | true =>
    rw [if_neg (show ¬((!true) = true) by decide)]
    by_cases hv : dbus_validate_interface args.type_
    · rw [if_neg (by simp [hv])]
      rcases ht2 : Oracle.take o₂ with ⟨b2, o₃⟩
      try rw [ht2]
      simp only []
      cases b2 with
      | false =>
        rw [if_pos (show (!false) = true by decide), handleFail_eq]
        refine ⟨by simpa using handleFailPath_counter w _, by simp, by simp⟩
      | true =>
        rw [if_neg (show ¬((!true) = true) by decide)]
        rcases ht3 : Oracle.take o₃ with ⟨b3, o₄⟩
        try rw [ht3]
        simp only []
        cases b3 with
        | false =>
          rw [if_pos (show (!false) = true by decide)]
          exact ⟨rfl, by simp, rfl⟩
        | true =>
          rw [if_neg (show ¬((!true) = true) by decide)]
          cases hnp : args.namedParams with
          | cons paramName rest =>
            simp only []
            rw [handleFail_eq]
            refine ⟨by simpa using handleFailPath_counter w _, by simp, by simp⟩
          | nil =>
            simp only []
            exact addServerRegister_facts env w _ o₄
    · rw [if_pos (by simp [hv])]
      rw [handleFail_eq]
      refine ⟨by simpa using handleFailPath_counter w _, by simp, by simp⟩


/-! ## Remaining helper lemmas for the claims -/

/-- With a nonempty cached template, the resolver returns the cache and
touches nothing. -/
theorem ensure_cached (env : Env) (c : BusContainers) (o : Oracle)
    (h : 0 < c.addressTemplate.length) :
    bus_containers_ensure_address_template env c o =
      (some c.addressTemplate, c, o) := by
  unfold bus_containers_ensure_address_template
  rw [if_pos h]

/-- With a nonempty named-parameter dictionary, `addServerArgs` never
succeeds: every path through it either fails earlier or rejects the first
named parameter. -/
theorem addServerArgs_named_no_ok (env : Env) (w : World)
    (inst : BusContainerInstance) (args : CreateArgs) (o : Oracle)
    (hne : args.namedParams ≠ []) :
    ∀ p, (addServerArgs env w inst args o).1.result ≠ HandleResult.ok p := by
  intro p
  unfold addServerArgs
  rcases ht1 : Oracle.take o with ⟨b1, o₂⟩
  try rw [ht1]
  simp only []
  cases b1 with
  | false =>
    rw [if_pos (show (!false) = true by decide), handleFail_eq]
    simp
  | true =>
    rw [if_neg (show ¬((!true) = true) by decide)]
    by_cases hv : dbus_validate_interface args.type_
    · rw [if_neg (show ¬((!dbus_validate_interface args.type_) = true) by
        simp [hv])]
      rcases ht2 : Oracle.take o₂ with ⟨b2, o₃⟩
      try rw [ht2]
      simp only []
      cases b2 with
      | false =>
        rw [if_pos (show (!false) = true by decide), handleFail_eq]
        simp
      | true =>
        rw [if_neg (show ¬((!true) = true) by decide)]
        rcases ht3 : Oracle.take o₃ with ⟨b3, o₄⟩
        try rw [ht3]
        simp only []
        cases b3 with
        | false =>
          rw [if_pos (show (!false) = true by decide)]
          simp
        | true =>
          rw [if_neg (show ¬((!true) = true) by decide)]
          cases hnp : args.namedParams with
          | nil => exact absurd hnp hne
          | cons paramName rest =>
            simp only []
            rw [handleFail_eq]
            simp
    · rw [if_pos (show (!dbus_validate_interface args.type_) = true by
        simp [hv])]
      rw [handleFail_eq]
      simp

/-! ## The claims -/

/-- C1: across one broker lifetime, distinct successful `CreateInstance`
calls return distinct object paths (each minted from the monotone 64-bit
counter and never reused), and once an instance has been removed a registry
lookup of its path reports absence rather than a younger instance. -/
theorem claim_C1 (env : Env) (w₀ : World) (ops : List Op)
    (h0 : RegInv w₀) :
    (createdPaths (run env w₀ ops).2).Nodup ∧
    (∀ p, Ev.created p ∈ (run env w₀ ops).2 →
       ∃ i, p = pathOfId i ∧ i < (run env w₀ ops).1.containers.nextContainerId) ∧
    (∀ p, Ev.removed p ∈ (run env w₀ ops).2 →
       lookupByPath (run env w₀ ops).1.containers p = none) := by
  have h := run_inv env ops w₀ []
    ⟨h0, by simp, by simp [createdPaths], by simp⟩
  obtain ⟨-, hcre, hnd, hrem⟩ := h
  refine ⟨by simpa using hnd, ?_, ?_⟩
  · intro p hp
    exact hcre p (by simpa using hp)
  · intro p hp
    exact (hrem p (by simpa using hp)).1

theorem claim_C1_witness :
    RegInv initW ∧
    ((createdPaths (run envU initW opsW).2).Nodup ∧
     (∀ p, Ev.created p ∈ (run envU initW opsW).2 →
        ∃ i, p = pathOfId i ∧
          i < (run envU initW opsW).1.containers.nextContainerId) ∧
     (∀ p, Ev.removed p ∈ (run envU initW opsW).2 →
        lookupByPath (run envU initW opsW).1.containers p = none)) :=
  ⟨fun kv hkv => absurd hkv (List.not_mem_nil kv),
   claim_C1 envU initW opsW (fun kv hkv => absurd hkv (List.not_mem_nil kv))⟩

/-- C2: REFUTED (code bug).  The claim says a failing `CreateInstance`
fully rolls back "and never aborts the broker process"; but the handler
does not check the result of the fallible `_dbus_variant_read` deep copy
(source line 473), and the very next statement dereferences it, so an
allocation failure at exactly that call crashes the broker instead of
returning an error reply.  The oracle `oomVariantRead` makes precisely
that call fail and every earlier one succeed. -/
theorem claim_C2 :
    (bus_containers_handle_add_server envU initW argsOk oomVariantRead).1.result =
      HandleResult.crashed := by decide

/-- C3: once the 64-bit instance counter has reached its maximum, every
further `CreateInstance` call fails — with the limits-exceeded error when
no allocation failure intervenes — no call ever succeeds, and the counter
is never wrapped around (it stays at the maximum, so earlier path values
are never reused). -/
theorem claim_C3 (env : Env) (w : World) (args : CreateArgs)
    (hmax : w.containers.nextContainerId = DBUS_UINT64_MAX) :
    (bus_containers_handle_add_server env w args Oracle.ok).1.result =
      HandleResult.err (DBusErr.limitsExceeded
        "Too many containers created during the lifetime of this bus") ∧
    (∀ o p, (bus_containers_handle_add_server env w args o).1.result ≠
      HandleResult.ok p) ∧
    (∀ o, (bus_containers_handle_add_server env w args
        o).1.world.containers.nextContainerId = DBUS_UINT64_MAX) := by
  have hge : DBUS_UINT64_MAX ≤ w.containers.nextContainerId := le_of_eq hmax.symm
  refine ⟨?_, ?_, ?_⟩
  · unfold bus_containers_handle_add_server
    rw [instance_new_max_eq w.containers hge]
  · intro o p hok
    have h := instance_new_max_no_ok w.containers o hge
    rcases hnr : bus_container_instance_new w.containers o with ⟨res, c₁, o₁, rec⟩
    rw [hnr] at h
    simp only [] at h
    unfold bus_containers_handle_add_server at hok
    rw [hnr] at hok
    simp only [] at hok
    cases res with
    | ok inst => exact absurd rfl (h.1 inst)
    | error e => simp at hok
  · intro o
    have h := instance_new_max_no_ok w.containers o hge
    rcases hnr : bus_container_instance_new w.containers o with ⟨res, c₁, o₁, rec⟩
    rw [hnr] at h
    simp only [] at h
    unfold bus_containers_handle_add_server
    rw [hnr]
    simp only []
    cases res with
    | ok inst => exact absurd rfl (h.1 inst)
    | error e =>
      simp only []
      rw [h.2]
      exact hmax

theorem claim_C3_witness :
    maxW.containers.nextContainerId = DBUS_UINT64_MAX ∧
    ((bus_containers_handle_add_server envU maxW argsOk Oracle.ok).1.result =
       HandleResult.err (DBusErr.limitsExceeded
         "Too many containers created during the lifetime of this bus") ∧
     (∀ o p, (bus_containers_handle_add_server envU maxW argsOk o).1.result ≠
       HandleResult.ok p) ∧
     (∀ o, (bus_containers_handle_add_server envU maxW argsOk
         o).1.world.containers.nextContainerId = DBUS_UINT64_MAX)) :=
  ⟨rfl, claim_C3 envU maxW argsOk rfl⟩

/-- C4 (amended): the listener address template is always a path-based
"unix:dir=" address, computed once and then reused from the cache; its
directory is the pre-provisioned `<runstatedir>/dbus/containers` when
running as uid 0, otherwise `<runtime-dir>/dbus-1/containers` (not the
`bus-private` path the spec names) when a runtime directory is configured,
otherwise the generic temporary directory. -/
theorem claim_C4 (env : Env) (self : BusContainers) (o o₀ : Oracle)
    (tmpl : String)
    (hempty : self.addressTemplate = "")
    (htmpl : (bus_containers_ensure_address_template env self o).1 = some tmpl) :
    tmpl = addressAppendEscaped "unix:dir="
      (match env.xdgRuntimeDir with
       | some rd => rd ++ "/dbus-1" ++ "/containers"
       | none => env.tmpdir) ∧
    (∃ rest, tmpl.data = "unix:dir=".data ++ rest) ∧
    (∀ c : BusContainers, ∀ o₂ : Oracle, 0 < c.addressTemplate.length →
       bus_containers_ensure_address_template env c o₂ =
         (some c.addressTemplate, c, o₂)) ∧
    (∀ c, env.uid = 0 → (bus_containers_new env o₀).1 = some c →
       c.addressTemplate = addressAppendEscaped "unix:dir="
         (env.runstatedir ++ "/dbus/containers")) := by
  have htv : tmpl = addressAppendEscaped "unix:dir="
      (match env.xdgRuntimeDir with
       | some rd => rd ++ "/dbus-1" ++ "/containers"
       | none => env.tmpdir) := by
    have hlen : ¬ (0 < self.addressTemplate.length) := by rw [hempty]; simp
    unfold bus_containers_ensure_address_template at htmpl
    rw [if_neg hlen] at htmpl
    cases hx : env.xdgRuntimeDir with
    | some rd =>
      rw [hx] at htmpl
      simp only [] at htmpl
      repeat' split at htmpl
      all_goals simp_all
    | none =>
      rw [hx] at htmpl
      simp only [] at htmpl
      repeat' split at htmpl
      all_goals simp_all
  refine ⟨htv, ?_, fun c o₂ h => ensure_cached env c o₂ h, ?_⟩
  · rw [htv]
    exact ⟨_, rfl⟩
  · intro c huid hc
    unfold bus_containers_new at hc
    repeat' split at hc
    all_goals simp_all
    all_goals (subst hc; rfl)

theorem claim_C4_witness :
    (⟨0, none, ""⟩ : BusContainers).addressTemplate = "" ∧
    (bus_containers_ensure_address_template envU ⟨0, none, ""⟩ Oracle.ok).1 =
      some "unix:dir=/run/user/1000/dbus-1/containers" ∧
    ("unix:dir=/run/user/1000/dbus-1/containers" = addressAppendEscaped "unix:dir="
       (match envU.xdgRuntimeDir with
        | some rd => rd ++ "/dbus-1" ++ "/containers"
        | none => envU.tmpdir) ∧
     (∃ rest, ("unix:dir=/run/user/1000/dbus-1/containers" : String).data =
        "unix:dir=".data ++ rest) ∧
     (∀ c : BusContainers, ∀ o₂ : Oracle, 0 < c.addressTemplate.length →
        bus_containers_ensure_address_template envU c o₂ =
          (some c.addressTemplate, c, o₂)) ∧
     (∀ c, envU.uid = 0 → (bus_containers_new envU Oracle.ok).1 = some c →
        c.addressTemplate = addressAppendEscaped "unix:dir="
          (envU.runstatedir ++ "/dbus/containers"))) :=
  ⟨rfl, by decide,
   claim_C4 envU ⟨0, none, ""⟩ Oracle.ok Oracle.ok _ rfl (by decide)⟩

/-- C4 counterexample to the original wording: for an unprivileged broker
with runtime directory `/run/user/1000`, the template the code computes is
`unix:dir=/run/user/1000/dbus-1/containers`, not the
`<runtime-dir>/bus-private/containers` address the spec describes. -/
theorem claim_C4_counterexample :
    (bus_containers_ensure_address_template envU ⟨0, none, ""⟩ Oracle.ok).1 =
      some "unix:dir=/run/user/1000/dbus-1/containers" ∧
    "unix:dir=/run/user/1000/dbus-1/containers" ≠
      addressAppendEscaped "unix:dir="
        ("/run/user/1000" ++ "/bus-private/containers") := by decide

/-- C5 (amended): this variant enforces no per-request resource limits
beyond the counter: the only limits-exceeded failure `CreateInstance` can
report is exhaustion of the 64-bit instance counter, and such a failure
registers no entry and opens no socket. -/
theorem claim_C5 (env : Env) (w : World) (args : CreateArgs) (o : Oracle)
    (msg : String)
    (h : (bus_containers_handle_add_server env w args o).1.result =
      HandleResult.err (DBusErr.limitsExceeded msg)) :
    DBUS_UINT64_MAX ≤ w.containers.nextContainerId ∧
    (bus_containers_handle_add_server env w args
        o).1.world.containers.instancesByPath = w.containers.instancesByPath ∧
    (bus_containers_handle_add_server env w args o).1.world.openServers =
      w.openServers := by
  have hin := instance_new_spec w.containers o
  rcases hnr : bus_container_instance_new w.containers o with ⟨res, c₁, o₁, rec⟩
  rw [hnr] at hin
  simp only [] at hin
  obtain ⟨hreg₁, -, -, -, -⟩ := hin
  unfold bus_containers_handle_add_server at h ⊢
  rw [hnr] at h ⊢
  simp only [] at h ⊢
  cases res with
  | error e =>
    simp only [] at h ⊢
    simp only [HandleResult.err.injEq] at h
    subst h
    exact ⟨instance_new_limits_msg w.containers o msg (by rw [hnr]), hreg₁, trivial⟩
  | ok inst =>
    simp only [] at h
    exact absurd h
      ((addServerArgs_facts env { w with containers := c₁ } inst args o₁).2.1 msg)

theorem claim_C5_witness :
    (bus_containers_handle_add_server envU maxW argsOk Oracle.ok).1.result =
      HandleResult.err (DBusErr.limitsExceeded
        "Too many containers created during the lifetime of this bus") ∧
    (DBUS_UINT64_MAX ≤ maxW.containers.nextContainerId ∧
     (bus_containers_handle_add_server envU maxW argsOk
         Oracle.ok).1.world.containers.instancesByPath =
       maxW.containers.instancesByPath ∧
     (bus_containers_handle_add_server envU maxW argsOk
         Oracle.ok).1.world.openServers = maxW.openServers) :=
  ⟨by decide, claim_C5 envU maxW argsOk Oracle.ok
    "Too many containers created during the lifetime of this bus" (by decide)⟩

/-- C5 counterexample to the original claim: with three instances already
live and a metadata blob of a billion bytes, creation still succeeds — the
code consults no instance-count, credential, metadata-size or peer limit
before committing. -/
theorem claim_C5_counterexample :
    (bus_containers_handle_add_server envU busyW argsBig Oracle.ok).1.result =
      HandleResult.ok (pathOfId 3) ∧
    (bus_containers_handle_add_server envU busyW argsBig
        Oracle.ok).1.world.openServers = 4 := by decide

/-- C6: any named parameter makes `CreateInstance` fail — it can never
succeed, and absent injected allocation failures the reply is exactly the
invalid-arguments error naming the first key — matching the advertised
`SupportedArguments` set, which is empty. -/
theorem claim_C6 (env : Env) (w : World) (args : CreateArgs)
    (paramName : String) (rest : List String)
    (hnp : args.namedParams = paramName :: rest)
    (hv : dbus_validate_interface args.type_ = true)
    (hcnt : w.containers.nextContainerId < DBUS_UINT64_MAX) :
    (∀ o p, (bus_containers_handle_add_server env w args o).1.result ≠
      HandleResult.ok p) ∧
    (bus_containers_handle_add_server env w args Oracle.ok).1.result =
      HandleResult.err (DBusErr.invalidArgs
        ("Named parameter " ++ paramName ++ " is not understood")) ∧
    (bus_containers_supported_arguments_getter Oracle.ok).1 = some [] := by
  refine ⟨?_, ?_, by decide⟩
  · intro o p hok
    unfold bus_containers_handle_add_server at hok
    rcases hnr : bus_container_instance_new w.containers o with ⟨res, c₁, o₁, rec⟩
    rw [hnr] at hok
    simp only [] at hok
    cases res with
    | error e => simp at hok
    | ok inst =>
      simp only [] at hok
      exact addServerArgs_named_no_ok env { w with containers := c₁ } inst args
        o₁ (by rw [hnp]; simp) p hok
  · unfold bus_containers_handle_add_server
    rw [instance_new_ok_eq w.containers hcnt]
    simp only []
    unfold addServerArgs
    simp only [Oracle.ok, Oracle.take]
    rw [if_neg (show ¬((!true) = true) by decide)]
    rw [if_neg (show ¬((!dbus_validate_interface args.type_) = true) by simp [hv])]
    rw [if_neg (show ¬((!true) = true) by decide)]
    rw [if_neg (show ¬((!true) = true) by decide)]
    rw [hnp]
    simp only []
    rw [handleFail_eq]

theorem claim_C6_witness :
    argsNamed.namedParams = "Isolation" :: [] ∧
    dbus_validate_interface argsNamed.type_ = true ∧
    initW.containers.nextContainerId < DBUS_UINT64_MAX ∧
    ((∀ o p, (bus_containers_handle_add_server envU initW argsNamed o).1.result ≠
       HandleResult.ok p) ∧
     (bus_containers_handle_add_server envU initW argsNamed Oracle.ok).1.result =
       HandleResult.err (DBusErr.invalidArgs
         ("Named parameter " ++ "Isolation" ++ " is not understood")) ∧
     (bus_containers_supported_arguments_getter Oracle.ok).1 = some []) :=
  ⟨rfl, by decide, by decide,
   claim_C6 envU initW argsNamed "Isolation" [] rfl (by decide) (by decide)⟩

/-- C7: whenever `bus_container_instance_listen` succeeds, the server it
attached has its authentication-mechanism set restricted to exactly the
single mechanism EXTERNAL — no anonymous, no multi-mechanism
negotiation. -/
theorem claim_C7 (env : Env) (w : World) (self : BusContainerInstance)
    (o : Oracle)
    (hserv : self.server = none)
    (hok : (bus_container_instance_listen env w self o).1 = Except.ok ()) :
    ∃ s, (bus_container_instance_listen env w self o).2.2.1.server = some s ∧
      s.authMechanisms = some auth_mechanisms ∧
      auth_mechanisms = ["EXTERNAL"] := by
  rcases hl : bus_container_instance_listen env w self o with ⟨r, w', self', o''⟩
  rw [hl] at hok
  simp only [] at hok ⊢
  obtain ⟨-, -, -, -, hlok, -⟩ :=
    listen_spec env w self o r w' self' o'' hserv hl
  obtain ⟨-, -, -, s, hs, hauth⟩ := hlok hok
  exact ⟨s, hs, hauth, rfl⟩

theorem claim_C7_witness :
    instFresh.server = none ∧
    (bus_container_instance_listen envT initW instFresh Oracle.ok).1 =
      Except.ok () ∧
    (∃ s, (bus_container_instance_listen envT initW instFresh
        Oracle.ok).2.2.1.server = some s ∧
      s.authMechanisms = some auth_mechanisms ∧
      auth_mechanisms = ["EXTERNAL"]) :=
  ⟨rfl, rfl, claim_C7 envT initW instFresh Oracle.ok rfl rfl⟩

/-- C8: when an instance with an attached server stops listening, the
accept callback is detached strictly before the socket is disconnected and
the server closed (the teardown events occur in exactly that order), and
the self-reference the accept callback held on the record is released by
the stop operation. -/
theorem claim_C8 (w : World) (self : BusContainerInstance)
    (hrc : 1 ≤ self.refcount) (hsrv : self.server.isSome = true) :
    (bus_container_instance_stop_listening w self).2.2.1 =
      [TeardownEv.detachCallback, TeardownEv.disconnect,
       TeardownEv.closeServer] ∧
    (self.serverHoldsRef = true →
       ((bus_container_instance_stop_listening w self).2.1 = none ∧
          self.refcount = 1) ∨
       (∃ i, (bus_container_instance_stop_listening w self).2.1 = some i ∧
          i.serverHoldsRef = false ∧ i.refcount + 1 = self.refcount)) := by
  obtain ⟨-, -, hevs, hrel⟩ := stop_spec w self hrc
  refine ⟨?_, hrel hsrv⟩
  rw [hevs, if_pos hsrv]

theorem claim_C8_witness :
    1 ≤ instListening.refcount ∧
    instListening.server.isSome = true ∧
    ((bus_container_instance_stop_listening initW instListening).2.2.1 =
       [TeardownEv.detachCallback, TeardownEv.disconnect,
        TeardownEv.closeServer] ∧
     (instListening.serverHoldsRef = true →
        ((bus_container_instance_stop_listening initW instListening).2.1 =
           none ∧ instListening.refcount = 1) ∨
        (∃ i, (bus_container_instance_stop_listening
            initW instListening).2.1 = some i ∧
          i.serverHoldsRef = false ∧
          i.refcount + 1 = instListening.refcount))) :=
  ⟨by decide, by decide, claim_C8 initW instListening (by decide) (by decide)⟩

/-- C9: along every legitimate lifecycle of an instance record the
destructor assertion `server == NULL` can never fire: whenever a reachable
record's reference count would drop to zero, its listener handle is
already gone, so every lifecycle step reports its assertions as passed. -/
theorem claim_C9 (env : Env) (w : World) (self : BusContainerInstance)
    (op : LifecycleOp) (hr : ReachInst env w self) (hleg : op.legit self) :
    (lifecycleStep env w self op).2.2 = true := by
  obtain ⟨hrc, hsrv⟩ := reach_inv env w self hr
  cases op with
  | acquireRef => rfl
  | releaseRef =>
    simp only [lifecycleStep]
    unfold bus_container_instance_unref
    split
    case isTrue hle =>
      simp only []
      simp only [LifecycleOp.legit] at hleg
      cases hsh : self.serverHoldsRef with
      | true =>
        rw [hsh] at hleg
        simp only [if_true] at hleg
        exact absurd hleg (by omega)
      | false =>
        cases hs : self.server with
        | none => rfl
        | some srv =>
          have h := hsrv (by rw [hs]; rfl)
          rw [hsh] at h
          cases h
    case isFalse hle => rfl
  | listenAndUnwind o =>
    simp only [lifecycleStep]
    rcases hl : bus_container_instance_listen env w self o
      with ⟨r, w₄, self₄, o₄⟩
    simp only []
    obtain ⟨-, -, -, -, -, hlerr⟩ :=
      listen_spec env w self o r w₄ self₄ o₄ hleg hl
    cases r with
    | ok u => rfl
    | error e =>
      obtain ⟨hrc₄, -, -⟩ := hlerr e rfl
      have hst := (stop_spec w₄ self₄ (by omega)).2.1
      rcases hq : bus_container_instance_stop_listening w₄ self₄
        with ⟨w₅, s₅, e₅, k₅⟩
      rw [hq] at hst
      simp only [] at hst ⊢
      exact hst
  | stopListening =>
    simp only [lifecycleStep]
    have hst := (stop_spec w self hrc).2.1
    rcases hq : bus_container_instance_stop_listening w self
      with ⟨w₅, s₅, e₅, k₅⟩
    rw [hq] at hst
    simp only [] at hst ⊢
    exact hst

theorem claim_C9_witness :
    (lifecycleStep envT initW instFresh LifecycleOp.releaseRef).2.2 = true :=
  claim_C9 envT initW instFresh LifecycleOp.releaseRef
    (ReachInst.new initW ⟨0, none, ""⟩ Oracle.ok instFresh rfl)
    (by simp [LifecycleOp.legit, instFresh])

/-- C10 (amended): a `CreateInstance` request that reaches the
instance-record allocation advances the 64-bit counter exactly once — even
when the request later fails — except when the counter is already
exhausted, in which case the exhaustion check fails the request and the
counter stays put; object-path numbers are therefore consumed by failed
requests. -/
theorem claim_C10 (env : Env) (w : World) (args : CreateArgs) (o : Oracle)
    (hrec : (bus_containers_handle_add_server env w args
        o).1.recordAllocated = true) :
    (bus_containers_handle_add_server env w args
        o).1.world.containers.nextContainerId =
      (if w.containers.nextContainerId < DBUS_UINT64_MAX
       then w.containers.nextContainerId + 1
       else w.containers.nextContainerId) := by
  have hcr := instance_new_counter_of_rec w.containers o
  rcases hnr : bus_container_instance_new w.containers o with ⟨res, c₁, o₁, rec⟩
  rw [hnr] at hcr
  simp only [] at hcr
  unfold bus_containers_handle_add_server at hrec ⊢
  rw [hnr] at hrec ⊢
  simp only [] at hrec ⊢
  cases res with
  | error e =>
    simp only [] at hrec ⊢
    exact hcr.1 hrec
  | ok inst =>
    have hrecT : rec = true := by
      have h := instance_new_ok_rec w.containers o inst (by rw [hnr])
      rw [hnr] at h
      simpa using h
    simp only [] at hrec ⊢
    rw [(addServerArgs_facts env { w with containers := c₁ } inst args o₁).1,
      hcr.1 hrecT]

theorem claim_C10_witness :
    (bus_containers_handle_add_server envU initW argsOk
        Oracle.ok).1.recordAllocated = true ∧
    (bus_containers_handle_add_server envU initW argsOk
        Oracle.ok).1.world.containers.nextContainerId =
      (if initW.containers.nextContainerId < DBUS_UINT64_MAX
       then initW.containers.nextContainerId + 1
       else initW.containers.nextContainerId) :=
  ⟨by decide, claim_C10 envU initW argsOk Oracle.ok (by decide)⟩

/-- C10 counterexample to the original claim: at an exhausted counter the
record allocation is reached (and succeeds), yet the counter is not
advanced — the exhaustion check fails the request first. -/
theorem claim_C10_counterexample :
    (bus_containers_handle_add_server envU maxW argsOk
        Oracle.ok).1.recordAllocated = true ∧
    (bus_containers_handle_add_server envU maxW argsOk
        Oracle.ok).1.world.containers.nextContainerId =
      maxW.containers.nextContainerId := by decide

end DBusContainers
